import Mathlib

/-!
Shallow embedding of the asynchronous DICOM background-job core of the
`django-medical-imaging-platform` repository
(`medical_imaging/tasks.py` together with the data model of
`medical_imaging/models.py`), and proofs of the specification claims
about it.

Conventions of the embedding:
* Django model rows become Lean structures; the relational store and the
  cache become explicit state (`DB`, `Cache`) threaded through each task.
* The external binary-format parser (`pydicom`, wrapped by
  `DicomParsingService`) is an external collaborator; its outcome for one
  file's bytes is therefore an input oracle (`ItemBehavior`) carried by
  each batch item, exactly covering the branches the task distinguishes:
  not recognized, recognized-but-parse-returns-none, recognized with an
  extracted SOP instance UID and a conversion success flag, or an
  exception raised while handling the item.
* Unexpected infrastructure exceptions in the task body (store
  unavailable, etc.) are an oracle parameter `fault` covering the
  study-row-observable exception points: before any study write, and
  after the final study-status save (see `Fault`); item-level exceptions
  are per-item oracles; database unique-constraint violations are
  computed from the state, mirroring the declared constraints
  (`sop_instance_uid` unique, `(study, instance_number)` unique).
* Dates are days (`Int`); TTLs are retained as arguments but real-time
  expiry is not part of the sequential model.
* `DB.statusWrites` is a ghost trace recording every status value the
  orchestrator writes to a study row, used to state the transition
  invariant claims.
-/

/-- Lock timeout constant from `tasks.py` (600 seconds). -/
def LOCK_TIMEOUT : Nat := 600

/-- Processing pipeline version tag from `tasks.py`. -/
def DICOM_PROCESSING_VERSION : String := "v1.2.0"

/-- HIPAA retention period in years, from `calculate_retention_dates`. -/
def RETENTION_YEARS : Nat := 6

/-- A patient row (`models.Patient`): the parent entity of a study,
belonging to a hospital (tenant). Only the fields the background jobs
read are modelled. -/
structure Patient where
  id : Nat
  hospital_id : Nat
  medical_record_number : String
deriving DecidableEq, Repr

/-- A hospital row (`models.Hospital`); the purge summary is keyed by its
name. -/
structure Hospital where
  id : Nat
  name : String
deriving DecidableEq, Repr

/-- An imaging study row (`models.ImagingStudy`).

The fields `error_message`, `processing_version` and `retention_until`
are used by `tasks.py` but absent from the snapshot's `models.py`
(whose migrations are not included). Modelled from the spec: the
Resource "has a processing status ∈ {pending, in_progress, completed,
failed, archived}; an optional error message; an optional retention
deadline; and a processing-pipeline version tag recorded on successful
completion". `study_date` is a date in days. -/
structure ImagingStudy where
  id : Nat
  patient_id : Nat
  study_date : Int
  modality : String
  status : String
  error_message : String
  processing_version : String
  retention_until : Option Int
deriving DecidableEq, Repr

/-- The metadata dictionary extracted by
`DicomParsingService.extract_metadata`, restricted to the keys that
`process_dicom_images_async` persists on the image row. -/
structure DicomMeta where
  slice_thickness : Option Int
  pixel_spacing : String
  slice_location : Option Int
  rows : Nat
  columns : Nat
  bits_allocated : Nat
  bits_stored : Nat
  window_center : String
  window_width : String
  rescale_intercept : Int
  rescale_slope : Int
  manufacturer : String
  manufacturer_model : String
deriving DecidableEq, Repr

/-- A DICOM image row (`models.DicomImage`): one stored batch item.
`sop_instance_uid` is `none` for rows created without the field (the
nullable unique column), and `some uid` — possibly `some ""` — when the
DICOM branch supplies it. `from_conversion` records whether the stored
artifact is the converted JPEG or the original bytes. -/
structure DicomImage where
  id : Nat
  study_id : Nat
  instance_number : Nat
  is_dicom : Bool
  sop_instance_uid : Option String
  meta : Option DicomMeta
  filename : String
  from_conversion : Bool
deriving DecidableEq, Repr

/-- An audit log row (`models.AuditLog`). The fields `actor_type` and
`tenant_id` are passed by every `AuditLog.objects.create` call in
`tasks.py` but absent from the snapshot's `models.py`. Modelled from the
spec: "AuditRecord (compliance log entry): actor type (system/user),
action, resource type + id, tenant id, timestamp, free-form detail
payload". The detail payload is modelled as a list of key/value string
pairs. -/
structure AuditLog where
  actor_type : String
  action : String
  resource_type : String
  resource_id : Nat
  tenant_id : Option Nat
  details : List (String × String)
deriving DecidableEq, Repr

/-- Entry of the `created_images` result list. -/
structure CreatedInfo where
  id : Nat
  filename : String
  instance_number : Nat
deriving DecidableEq, Repr

/-- Entry of the `skipped_images` result list. -/
structure SkippedInfo where
  filename : String
  reason : String
  sop_instance_uid : String
deriving DecidableEq, Repr

/-- The `result` JSON payload stored on a finished `TaskStatus` row. -/
structure TaskResultPayload where
  created : Nat
  skipped : Nat
  errors : Nat
  created_images : List CreatedInfo
  skipped_images : List SkippedInfo
  error_messages : List String
deriving DecidableEq, Repr

/-- A task status row (`models.TaskStatus`). -/
structure TaskStatus where
  task_id : String
  task_name : String
  status : String
  total_items : Nat
  processed_items : Nat
  failed_items : Nat
  result : Option TaskResultPayload
  error_message : String
  study_id : Option Nat
  user_id : Option Nat
deriving DecidableEq, Repr

/-- The relational store. `statusWrites` is a ghost trace of the
`(study id, status)` values written by study-row saves that include the
status column. -/
structure DB where
  hospitals : List Hospital
  patients : List Patient
  studies : List ImagingStudy
  images : List DicomImage
  auditLogs : List AuditLog
  taskStatuses : List TaskStatus
  nextImageId : Nat
  statusWrites : List (Nat × String)
deriving DecidableEq, Repr

/-- The cache / lock-coordination service: a key-value store. -/
structure Cache where
  entries : List (String × String)
deriving DecidableEq, Repr

/-- `cache.get(key)`. -/
def cacheGet (c : Cache) (k : String) : Option String :=
  (c.entries.find? (fun e => e.1 == k)).map (fun e => e.2)

/-- `cache.add(key, value, ttl)`: atomic set-if-absent, returning the new
cache and whether the value was stored. The TTL argument is kept for
fidelity; real-time expiry is outside the sequential model. -/
def cacheAdd (c : Cache) (k v : String) (_ttl : Nat) : Cache × Bool :=
  match cacheGet c k with
  | some _ => (c, false)
  | none => (⟨(k, v) :: c.entries⟩, true)

/-- `cache.delete(key)`. -/
def cacheDelete (c : Cache) (k : String) : Cache :=
  ⟨c.entries.filter (fun e => ¬(e.1 == k))⟩

/-- Combined state of the external collaborators. -/
structure World where
  db : DB
  cache : Cache
deriving DecidableEq, Repr

/-- `ImagingStudy.objects.select_for_update().get(id=study_id)` (and any
primary-key lookup of a study): first row with the id, if any. -/
def findStudy (db : DB) (sid : Nat) : Option ImagingStudy :=
  db.studies.find? (fun s => s.id == sid)

/-- `study.save()`: write back all columns of the study row with this id,
recording the status written in the ghost trace. -/
def saveStudy (db : DB) (st : ImagingStudy) : DB :=
  { db with
    studies := db.studies.map (fun t => if t.id == st.id then st else t)
    statusWrites := db.statusWrites ++ [(st.id, st.status)] }

/-- `study.save(update_fields=['retention_until'])`: write back only the
retention column (no status write, hence no ghost trace entry). -/
def saveStudyRetention (db : DB) (sid : Nat) (r : Option Int) : DB :=
  { db with
    studies := db.studies.map (fun t =>
      if t.id == sid then { t with retention_until := r } else t) }

/-- `ImagingStudy.objects.filter(id=study_id).update(status='failed',
error_message=...)` from the defensive failure path: updates matching
rows in place; the ghost trace records the write only when a row with the
id exists (an empty queryset writes nothing). -/
def studiesMarkFailedById (db : DB) (sid : Nat) (msg : String) : DB :=
  if db.studies.any (fun s => s.id == sid) then
    { db with
      studies := db.studies.map (fun t =>
        if t.id == sid then { t with status := "failed", error_message := msg } else t)
      statusWrites := db.statusWrites ++ [(sid, "failed")] }
  else db

/-- `study.delete()`: remove the study row, cascading to its
`DicomImage` rows. -/
def deleteStudyCascade (db : DB) (sid : Nat) : DB :=
  { db with
    studies := db.studies.filter (fun s => ¬(s.id == sid))
    images := db.images.filter (fun im => ¬(im.study_id == sid)) }

/-- `study.patient.hospital_id`: the tenant id threaded into audit rows. -/
def tenantOf (db : DB) (st : ImagingStudy) : Option Nat :=
  (db.patients.find? (fun p => p.id == st.patient_id)).map (fun p => p.hospital_id)

/-- `study.patient.medical_record_number` (defaulting to `""` when the
foreign key cannot be resolved; a dangling key raising instead is covered
by the purge failure oracle). -/
def mrnOf (db : DB) (st : ImagingStudy) : String :=
  match db.patients.find? (fun p => p.id == st.patient_id) with
  | some p => p.medical_record_number
  | none => ""

/-- `study.patient.hospital.name` (same convention as `mrnOf`). -/
def hospitalNameOf (db : DB) (st : ImagingStudy) : String :=
  match db.patients.find? (fun p => p.id == st.patient_id) with
  | none => ""
  | some p =>
    match db.hospitals.find? (fun h => h.id == p.hospital_id) with
    | some h => h.name
    | none => ""

/-- `AuditLog.objects.create(...)`: append-only insert. -/
def auditAppend (db : DB) (a : AuditLog) : DB :=
  { db with auditLogs := db.auditLogs ++ [a] }

/-- `TaskStatus.objects.get_or_create(task_id=..., defaults=...)`
followed by the re-delivery update (`status='processing'`,
`total_items=len(file_data_list)`, `save()`). -/
def taskStatusUpsert (db : DB) (tid : String) (sid : Nat) (uid : Option Nat)
    (total : Nat) : DB :=
  if db.taskStatuses.any (fun t => t.task_id == tid) then
    { db with taskStatuses := db.taskStatuses.map (fun t =>
        if t.task_id == tid then { t with status := "processing", total_items := total } else t) }
  else
    { db with taskStatuses := db.taskStatuses ++ [{
        task_id := tid
        task_name := "DICOM Image Processing"
        status := "processing"
        total_items := total
        processed_items := 0
        failed_items := 0
        result := none
        error_message := ""
        study_id := some sid
        user_id := uid }] }

/-- Update the task-status row with the given id in place. -/
def taskStatusUpdate (db : DB) (tid : String) (f : TaskStatus → TaskStatus) : DB :=
  { db with taskStatuses := db.taskStatuses.map (fun t =>
      if t.task_id == tid then f t else t) }

/-- `task_status.processed_items = idx; task_status.save()` inside the
item loop. -/
def taskStatusSetProcessed (db : DB) (tid : String) (idx : Nat) : DB :=
  taskStatusUpdate db tid (fun t => { t with processed_items := idx })

/-- `task_status.failed_items += 1; task_status.save()` in the item-level
exception handler. -/
def taskStatusIncFailed (db : DB) (tid : String) : DB :=
  taskStatusUpdate db tid (fun t => { t with failed_items := t.failed_items + 1 })

/-- The `Study with ID ... not found` failure update of the task status. -/
def taskStatusSetFailedMsg (db : DB) (tid : String) (msg : String) : DB :=
  taskStatusUpdate db tid (fun t => { t with status := "failed", error_message := msg })

/-- Outcome reported by the external DICOM library for one file's bytes
(an input oracle covering exactly the branches the task distinguishes). -/
inductive ItemBehavior where
  /-- Some step of handling this item raises an exception with this text. -/
  | raisesMsg (msg : String)
  /-- `DicomParsingService.is_dicom_file` returns `False`. -/
  | notDicom
  /-- `is_dicom_file` returns `True` but `parse_dicom_file` returns
  `(None, None)`. -/
  | dicomParseFailed
  /-- Parsing succeeds with the extracted `SOPInstanceUID` string
  (possibly `""`), the extracted metadata, and whether
  `dicom_to_pil_image` produces an image. -/
  | dicom (sopUid : String) (meta : DicomMeta) (convertOk : Bool)
deriving DecidableEq, Repr

/-- One element of `file_data_list`: `{'filename', 'content',
'instance_number'}`, with the parser oracle standing for the raw
content. -/
structure FileData where
  filename : String
  instance_number : Nat
  behavior : ItemBehavior
deriving DecidableEq, Repr

/-- The column values accumulated in the `image_data` dict before
`DicomImage.objects.create(**image_data, ...)`. -/
structure ImageData where
  study_id : Nat
  instance_number : Nat
  is_dicom : Bool
  meta : Option DicomMeta
  sop_uid : Option String
deriving DecidableEq, Repr

/-- Text of the unique-constraint violation on the SOP instance UID. -/
def uidConstraintMsg : String :=
  "UNIQUE constraint failed: medical_imaging_dicomimage.sop_instance_uid"

/-- Text of the unique-together violation on `(study, instance_number)`. -/
def instanceConstraintMsg : String :=
  "UNIQUE constraint failed: medical_imaging_dicomimage.study_id, medical_imaging_dicomimage.instance_number"

/-- `DicomImage.objects.create(...)`: insert one image row, enforcing the
declared unique constraints (`sop_instance_uid` unique among non-null
values; `unique_together = ['study', 'instance_number']`). On violation
the insert raises, surfacing as `Except.error`. -/
def dicomImageCreate (db : DB) (data : ImageData) (fname : String)
    (fromConv : Bool) : Except String (DicomImage × DB) :=
  if (match data.sop_uid with
      | some u => db.images.any (fun im => im.sop_instance_uid == some u)
      | none => false) then
    .error uidConstraintMsg
  else if db.images.any (fun im =>
      im.study_id == data.study_id && im.instance_number == data.instance_number) then
    .error instanceConstraintMsg
  else
    let im : DicomImage :=
      { id := db.nextImageId
        study_id := data.study_id
        instance_number := data.instance_number
        is_dicom := data.is_dicom
        sop_instance_uid := data.sop_uid
        meta := data.meta
        filename := fname
        from_conversion := fromConv }
    .ok (im, { db with images := db.images ++ [im], nextImageId := db.nextImageId + 1 })

/-- Outcome of the batch item processor for one file. -/
inductive ItemOutcome where
  | created (info : CreatedInfo)
  | skippedDup (info : SkippedInfo)
  | errored (msg : String)
deriving DecidableEq, Repr

/-- `f"Error processing {filename}: {e}"`. -/
def itemErrorMsg (fname msg : String) : String :=
  "Error processing " ++ fname ++ ": " ++ msg

/-- Wrap an insert attempt as an item outcome: success appends to
`created_images`; an exception is caught by the per-item handler. -/
def createAsOutcome (db : DB) (data : ImageData) (fname displayName : String)
    (fromConv : Bool) : ItemOutcome × DB :=
  match dicomImageCreate db data displayName fromConv with
  | .error m => (.errored (itemErrorMsg fname m), db)
  | .ok (im, db') =>
    (.created { id := im.id, filename := fname, instance_number := im.instance_number }, db')

/-- The batch item processor: the body of the per-item `try` of
`process_dicom_images_async` (lines 161–268 of `tasks.py`), for one
element of `file_data_list`. -/
def processOneItem (study : ImagingStudy) (fd : FileData) (db : DB) :
    ItemOutcome × DB :=
  match fd.behavior with
  | .raisesMsg m => (.errored (itemErrorMsg fd.filename m), db)
  | .notDicom =>
    createAsOutcome db
      { study_id := study.id, instance_number := fd.instance_number,
        is_dicom := false, meta := none, sop_uid := none }
      fd.filename fd.filename false
  | .dicomParseFailed =>
    createAsOutcome db
      { study_id := study.id, instance_number := fd.instance_number,
        is_dicom := true, meta := none, sop_uid := none }
      fd.filename fd.filename false
  | .dicom sopUid meta convertOk =>
    if (sopUid != "") && db.images.any (fun im => im.sop_instance_uid == some sopUid) then
      (.skippedDup { filename := fd.filename, reason := "Duplicate SOP Instance UID",
                     sop_instance_uid := sopUid }, db)
    else
      let data : ImageData :=
        { study_id := study.id, instance_number := fd.instance_number,
          is_dicom := true, meta := some meta, sop_uid := some sopUid }
      if convertOk then
        createAsOutcome db data fd.filename (fd.filename ++ ".jpg") true
      else
        createAsOutcome db data fd.filename fd.filename false

/-- The item loop of `process_dicom_images_async` (lines 161–275):
update the progress counter, run the batch item processor, and
accumulate the `created_images` / `skipped_images` / `errors` lists
(one item's failure is recorded and the loop continues). -/
def processItems (tid : String) (study : ImagingStudy) :
    List FileData → Nat → DB → List CreatedInfo → List SkippedInfo → List String →
    DB × List CreatedInfo × List SkippedInfo × List String
  | [], _, db, cs, ss, es => (db, cs, ss, es)
  | fd :: rest, idx, db, cs, ss, es =>
    let db0 := taskStatusSetProcessed db tid idx
    match processOneItem study fd db0 with
    | (.created info, db1) => processItems tid study rest (idx + 1) db1 (cs ++ [info]) ss es
    | (.skippedDup info, db1) => processItems tid study rest (idx + 1) db1 cs (ss ++ [info]) es
    | (.errored msg, db1) =>
      processItems tid study rest (idx + 1) (taskStatusIncFailed db1 tid) cs ss (es ++ [msg])

/-- Render an optional numeric id the way the Python `details` dict
holds it. -/
def optNatStr : Option Nat → String
  | some n => toString n
  | none => "None"

/-- Lines 118–136: mark the study `in_progress`, clear the previous
error, save, and emit the `process`-action audit record (actor
`system`, tenant = the study's patient's hospital). Returns the
in-memory study object alongside the updated store. -/
def markInProgressAndAudit (tid : String) (sid : Nat) (correlationId : String)
    (userId : Option Nat) (study : ImagingStudy) (total : Nat) (db : DB) :
    ImagingStudy × DB :=
  let study1 := { study with status := "in_progress", error_message := "" }
  let db1 := saveStudy db study1
  let db2 := auditAppend db1
    { actor_type := "system"
      action := "process"
      resource_type := "ImagingStudy"
      resource_id := sid
      tenant_id := tenantOf db1 study1
      details := [("task_id", tid), ("correlation_id", correlationId),
                  ("total_files", toString total),
                  ("initiated_by_user_id", optNatStr userId)] }
  (study1, db2)

/-- The in-memory study row as the final `study.save()` of lines
280–305 writes it: `completed` with the pipeline version stamped when no
item errored, otherwise `failed` with the first (up to 3) error
messages. -/
def finalStudyRow (study : ImagingStudy) (errors : List String) : ImagingStudy :=
  if errors.isEmpty then
    { study with
      status := "completed"
      processing_version := DICOM_PROCESSING_VERSION }
  else
    { study with
      status := "failed"
      error_message := String.intercalate "\n" (errors.take 3) }

/-- Lines 277–330: transition the study and the task status according to
whether any item errored, emit the corresponding audit record, and store
the truncated result payload on the task status. -/
def finalizeRun (tid : String) (sid : Nat) (study : ImagingStudy)
    (created : List CreatedInfo) (skipped : List SkippedInfo)
    (errors : List String) (total : Nat) (db : DB) : DB :=
  let db1 :=
    if errors.isEmpty then
      let study2 := finalStudyRow study errors
      let dbA := saveStudy db study2
      auditAppend dbA
        { actor_type := "system", action := "update",
          resource_type := "ImagingStudy", resource_id := sid,
          tenant_id := tenantOf dbA study2,
          details := [("task_id", tid),
                      ("images_created", toString created.length),
                      ("images_skipped", toString skipped.length)] }
    else
      let study2 := finalStudyRow study errors
      let dbA := saveStudy db study2
      auditAppend dbA
        { actor_type := "system", action := "failed",
          resource_type := "ImagingStudy", resource_id := sid,
          tenant_id := tenantOf dbA study2,
          details := [("task_id", tid),
                      ("total_errors", toString errors.length),
                      ("error_messages", String.intercalate "\n" (errors.take 5))] }
  taskStatusUpdate db1 tid (fun t =>
    { t with
      processed_items := total
      status := if errors.isEmpty then "completed" else "failed"
      error_message := if errors.isEmpty then t.error_message
                       else String.intercalate "\n" (errors.take 5)
      result := some
        { created := created.length
          skipped := skipped.length
          errors := errors.length
          created_images := created
          skipped_images := skipped
          error_messages := errors.take 10 } })

/-- Value returned (or exception re-raised) by one delivery of
`process_dicom_images_async`. -/
inductive TaskRunResult where
  /-- `{'status': 'skipped', 'reason': 'already_processing',
  'existing_task_id': ...}` when the distributed lock is held. -/
  | skippedLock (existingTaskId : Option String)
  /-- `{'status': 'already_completed', 'study_id': ...}` from the
  idempotency guard. -/
  | alreadyCompleted (studyId : Nat)
  /-- `{'error': 'Study not found'}`. -/
  | studyNotFound
  /-- The normal `{'created_images', 'skipped_images', 'errors',
  'task_id'}` payload. -/
  | finished (createdImages : List CreatedInfo) (skippedImages : List SkippedInfo)
      (errors : List String) (taskId : String)
  /-- An unexpected exception, re-raised for retry via `self.retry`. -/
  | raised (msg : String)
deriving DecidableEq, Repr

/-- Oracle for an unexpected infrastructure exception inside the guarded
`try` body of `process_dicom_images_async`, at the two points that are
observationally distinct for the study row:
* `atStart`: raised before any study write (e.g. the task-status
  `get_or_create` at line 89); an exception raised inside the
  `transaction.atomic` block (lines 107–136) rolls that block's writes
  back and reaches the same handler, so its effect on the study row is
  the same;
* `atFinalize`: raised after the final study-status save — in the
  completion/failure audit create (lines 290/309) or the final
  task-status save (line 330).
Either way the defensive handler (lines 339–351) marks the study row
`failed` with the truncated exception text (and the task-status row,
when it exists already) and re-raises for retry. Exceptions raised while
handling one batch item are not faults of the body: they are caught by
the per-item handler and modelled by `ItemBehavior.raisesMsg`. -/
inductive Fault where
  | noFault
  | atStart (msg : String)
  | atFinalize (msg : String)
deriving DecidableEq, Repr

/-- The guarded body from the task-status upsert onwards, shared by the
fault-free run (`lateFault = none`, ending in `finalizeRun`) and the
late-fault run (`lateFault = some m`: the final `study.save()` of lines
280–305 happens, then the exception fires before the remaining
completion bookkeeping, and the defensive handler of lines 339–351 marks
the study and task rows failed and re-raises). -/
def processBodyRun (tid : String) (sid : Nat) (fileDataList : List FileData)
    (userId : Option Nat) (correlationId : String) (lateFault : Option String)
    (db : DB) : TaskRunResult × DB :=
  let db1 := taskStatusUpsert db tid sid userId fileDataList.length
  match findStudy db1 sid with
  | none =>
    let db2 := taskStatusSetFailedMsg db1 tid
      ("Study with ID " ++ toString sid ++ " not found")
    let db3 := auditAppend db2
      { actor_type := "system", action := "failed",
        resource_type := "ImagingStudy", resource_id := sid,
        tenant_id := none,
        details := [("task_id", tid), ("error", "Study not found")] }
    (.studyNotFound, db3)
  | some study =>
    if study.status == "completed" then
      (.alreadyCompleted sid, db1)
    else
      let (study1, db3) :=
        markInProgressAndAudit tid sid correlationId userId study fileDataList.length db1
      let (db4, created, skipped, errors) :=
        processItems tid study1 fileDataList 0 db3 [] [] []
      match lateFault with
      | none =>
        let db5 := finalizeRun tid sid study1 created skipped errors fileDataList.length db4
        (.finished created skipped errors tid, db5)
      | some m =>
        let db5 := saveStudy db4 (finalStudyRow study1 errors)
        let db6 := studiesMarkFailedById db5 sid (m.take 500)
        (.raised m, taskStatusSetFailedMsg db6 tid m)

/-- The `try ... except Exception` body of `process_dicom_images_async`
(everything between acquiring and releasing the distributed lock),
driven by the fault oracle. -/
def processBody (tid : String) (sid : Nat) (fileDataList : List FileData)
    (userId : Option Nat) (correlationId : String) (fault : Fault)
    (db : DB) : TaskRunResult × DB :=
  match fault with
  | .atStart m =>
    (.raised m, studiesMarkFailedById db sid (m.take 500))
  | .noFault => processBodyRun tid sid fileDataList userId correlationId none db
  | .atFinalize m => processBodyRun tid sid fileDataList userId correlationId (some m) db

/-- The distributed-lock key for a study. -/
def lockKeyOf (sid : Nat) : String := "dicom-processing-" ++ toString sid

/-- `process_dicom_images_async(study_id, file_data_list, user_id,
correlation_id)` for one delivery with Celery task id `tid`: acquire the
per-study distributed lock (returning the `already_processing` skip
payload when it is held), run the guarded body, and always release the
lock afterwards. -/
def process_dicom_images_async (tid : String) (sid : Nat)
    (fileDataList : List FileData) (userId : Option Nat)
    (correlationId : String) (fault : Fault) (w : World) :
    TaskRunResult × World :=
  let lockKey := lockKeyOf sid
  match cacheAdd w.cache lockKey tid LOCK_TIMEOUT with
  | (_, false) => (.skippedLock (cacheGet w.cache lockKey), w)
  | (c1, true) =>
    let (res, db1) := processBody tid sid fileDataList userId correlationId fault w.db
    (res, { db := db1, cache := cacheDelete c1 lockKey })

/-- Summary dict returned by `purge_expired_studies`. -/
structure PurgeSummary where
  total_purged : Nat
  by_hospital : List (String × Nat)
  errors : List String
deriving DecidableEq, Repr

/-- Oracle for a per-study exception inside the purge loop's `try`:
either no failure, a failure raised before the audit record is created
(e.g. a dangling foreign key), or a failure raised by `study.delete()`
itself (after the audit record was created). -/
inductive PurgeFail where
  | noFail
  | failEarly (msg : String)
  | failAtDelete (msg : String)
deriving DecidableEq, Repr

/-- `f"Failed to purge study {study.id}: {e}"`. -/
def purgeFailMsg (sid : Nat) (msg : String) : String :=
  "Failed to purge study " ++ toString sid ++ ": " ++ msg

/-- `purge_summary['by_hospital'][name] = get(name, 0) + 1`. -/
def bumpCount : List (String × Nat) → String → List (String × Nat)
  | [], name => [(name, 1)]
  | (k, n) :: rest, name =>
    if k == name then (k, n + 1) :: rest else (k, n) :: bumpCount rest name

/-- The `delete`-action audit record emitted before a study is purged,
capturing enough detail to reconstruct what was deleted. -/
def purgeAudit (db : DB) (s : ImagingStudy) : AuditLog :=
  { actor_type := "system"
    action := "delete"
    resource_type := "ImagingStudy"
    resource_id := s.id
    tenant_id := tenantOf db s
    details := [("reason", "retention_period_expired"),
                ("retention_until", match s.retention_until with
                                    | some d => toString d
                                    | none => "None"),
                ("study_date", toString s.study_date),
                ("patient_mrn", mrnOf db s),
                ("modality", s.modality),
                ("images_count", toString (db.images.filter
                    (fun im => im.study_id == s.id)).length)] }

/-- The selection predicate of the purge sweep: `status='archived'` and
`retention_until__lt=today`. -/
def isExpired (today : Int) (s : ImagingStudy) : Bool :=
  s.status == "archived" &&
    (match s.retention_until with
     | some d => decide (d < today)
     | none => false)

/-- The per-study loop of `purge_expired_studies`: audit then delete,
collecting per-study failures into the error list without stopping the
sweep. -/
def purgeLoop (oracle : Nat → PurgeFail) :
    List ImagingStudy → PurgeSummary → DB → PurgeSummary × DB
  | [], acc, db => (acc, db)
  | s :: rest, acc, db =>
    match oracle s.id with
    | .failEarly m =>
      purgeLoop oracle rest
        { acc with errors := acc.errors ++ [purgeFailMsg s.id m] } db
    | .failAtDelete m =>
      let db1 := auditAppend db (purgeAudit db s)
      purgeLoop oracle rest
        { acc with errors := acc.errors ++ [purgeFailMsg s.id m] } db1
    | .noFail =>
      let hname := hospitalNameOf db s
      let db1 := auditAppend db (purgeAudit db s)
      let db2 := deleteStudyCascade db1 s.id
      purgeLoop oracle rest
        { acc with
          total_purged := acc.total_purged + 1
          by_hospital := bumpCount acc.by_hospital hname } db2

/-- `purge_expired_studies()`: sweep the studies whose status is
`archived` and whose retention deadline is strictly before `today`,
auditing each deletion before performing it. `retention_until` is a
field missing from the snapshot's `models.py`; modelled from the spec
("an optional retention deadline (date after which it is eligible for
purge)"). -/
def purge_expired_studies (today : Int) (oracle : Nat → PurgeFail)
    (db : DB) : PurgeSummary × DB :=
  purgeLoop oracle (db.studies.filter (isExpired today))
    { total_purged := 0, by_hospital := [], errors := [] } db

/-- The per-study loop of `calculate_retention_dates`: set
`retention_until = study_date + 365 * RETENTION_YEARS` days and save
that single field. -/
def backfillLoop : List ImagingStudy → DB → Nat → DB × Nat
  | [], db, n => (db, n)
  | s :: rest, db, n =>
    let r : Int := s.study_date + 365 * RETENTION_YEARS
    backfillLoop rest (saveStudyRetention db s.id (some r)) (n + 1)

/-- `calculate_retention_dates()`: backfill the retention deadline of
every study that has none (`retention_until__isnull=True`), leaving the
others untouched; returns `(updated_count, retention_years)`.
`retention_until` is modelled from the spec as for
`purge_expired_studies`. -/
def calculate_retention_dates (db : DB) : (Nat × Nat) × DB :=
  let (db1, n) := backfillLoop
    (db.studies.filter (fun s => s.retention_until == none)) db 0
  ((n, RETENTION_YEARS), db1)

/-- The tables of the store not touched by the item loop: everything
except images, the image id counter and the task statuses. -/
def SameCoreTables (db0 db1 : DB) : Prop :=
  db1.hospitals = db0.hospitals ∧ db1.patients = db0.patients ∧
  db1.studies = db0.studies ∧ db1.auditLogs = db0.auditLogs ∧
  db1.statusWrites = db0.statusWrites

/-- The dedup invariant: no two stored items carry the same (non-null)
content-unique identifier. -/
def UidUnique (imgs : List DicomImage) : Prop :=
  imgs.Pairwise (fun a b => ∀ u : String,
    a.sop_instance_uid = some u → b.sop_instance_uid ≠ some u)

/-! ### Concrete fixtures used by witnesses and counterexamples -/

/-- A sample extracted metadata record. -/
def metaW : DicomMeta :=
  { slice_thickness := none, pixel_spacing := "", slice_location := none,
    rows := 2, columns := 2, bits_allocated := 8, bits_stored := 8,
    window_center := "", window_width := "", rescale_intercept := 0,
    rescale_slope := 1, manufacturer := "", manufacturer_model := "" }

/-- A sample pending study. -/
def stW : ImagingStudy :=
  { id := 5, patient_id := 1, study_date := 100, modality := "CT",
    status := "pending", error_message := "", processing_version := "",
    retention_until := none }

/-- A sample store with one hospital, one patient and the study `stW`. -/
def dbW : DB :=
  { hospitals := [{ id := 1, name := "H" }]
    patients := [{ id := 1, hospital_id := 1, medical_record_number := "M1" }]
    studies := [stW]
    images := [], auditLogs := [], taskStatuses := [], nextImageId := 1,
    statusWrites := [] }

/-- A stored image carrying SOP instance UID `"X"`. -/
def imX : DicomImage :=
  { id := 9, study_id := 7, instance_number := 1, is_dicom := true,
    sop_instance_uid := some "X", meta := none, filename := "p",
    from_conversion := true }

/-- A generic (non-DICOM) upload. -/
def fdGen (n : Nat) (f : String) : FileData :=
  { filename := f, instance_number := n, behavior := .notDicom }

/-- A DICOM upload with the given SOP instance UID, converting cleanly. -/
def fdDicom (f : String) (n : Nat) (u : String) : FileData :=
  { filename := f, instance_number := n, behavior := .dicom u metaW true }

/-- The world with a free lock over `dbW`. -/
def wFree : World := { db := dbW, cache := ⟨[]⟩ }

/-- The world where study 5's lock is already held by task `"t0"`. -/
def wHeld : World := { db := dbW, cache := ⟨[("dicom-processing-5", "t0")]⟩ }

/-- `dbW` with the study already completed. -/
def dbDone : DB := { dbW with studies := [{ stW with status := "completed" }] }

/-- World for the idempotency-guard witness. -/
def wDone : World := { db := dbDone, cache := ⟨[]⟩ }

/-- `dbW` with the study archived (for the transition counterexample). -/
def dbArch : DB := { dbW with studies := [{ stW with status := "archived" }] }

/-- World over `dbArch` with a free lock. -/
def wArch : World := { db := dbArch, cache := ⟨[]⟩ }

/-- `dbW` with one stored image whose SOP instance UID is `"X"`. -/
def dbWithX : DB := { dbW with images := [imX] }

/-- `dbW` with one stored image whose SOP instance UID is the empty
string. -/
def dbWithEmptyUid : DB := { dbW with images := [{ imX with sop_instance_uid := some "" }] }

/-- An upload whose handling raises an exception with text `"boom"`. -/
def fdBad : FileData :=
  { filename := "bad.dcm", instance_number := 2, behavior := .raisesMsg "boom" }

/-- An archived study whose retention deadline (day 50) has passed. -/
def stExpired : ImagingStudy :=
  { id := 7, patient_id := 1, study_date := 10, modality := "CT",
    status := "archived", error_message := "", processing_version := "",
    retention_until := some 50 }

/-- An archived study whose retention deadline (day 500) has not passed. -/
def stKept : ImagingStudy :=
  { id := 8, patient_id := 1, study_date := 10, modality := "CT",
    status := "archived", error_message := "", processing_version := "",
    retention_until := some 500 }

/-- A store with one expired, one unexpired-archived and one pending
study (purge fixture; "today" is day 100). -/
def dbPurge : DB := { dbW with studies := [stExpired, stKept, stW] }

/-! ### General lemmas about the embedded operations -/

theorem cacheGet_delete_self (c : Cache) (k : String) :
    cacheGet (cacheDelete c k) k = none := by
  have hfind : (c.entries.filter fun e => ¬(e.1 == k)).find? (fun e => e.1 == k) = none := by
    rw [List.find?_eq_none]
    intro x hx
    have hx2 := (List.mem_filter.mp hx).2
    simp at hx2
    simp [hx2]
  simp [cacheGet, cacheDelete, hfind]

theorem taskStatusUpsert_studies (db : DB) (tid : String) (sid : Nat)
    (uid : Option Nat) (n : Nat) :
    (taskStatusUpsert db tid sid uid n).studies = db.studies := by
  unfold taskStatusUpsert; split <;> rfl

theorem taskStatusUpsert_images (db : DB) (tid : String) (sid : Nat)
    (uid : Option Nat) (n : Nat) :
    (taskStatusUpsert db tid sid uid n).images = db.images := by
  unfold taskStatusUpsert; split <;> rfl

theorem taskStatusUpsert_auditLogs (db : DB) (tid : String) (sid : Nat)
    (uid : Option Nat) (n : Nat) :
    (taskStatusUpsert db tid sid uid n).auditLogs = db.auditLogs := by
  unfold taskStatusUpsert; split <;> rfl

theorem taskStatusUpsert_statusWrites (db : DB) (tid : String) (sid : Nat)
    (uid : Option Nat) (n : Nat) :
    (taskStatusUpsert db tid sid uid n).statusWrites = db.statusWrites := by
  unfold taskStatusUpsert; split <;> rfl

theorem findStudy_upsert (db : DB) (tid : String) (sid : Nat)
    (uid : Option Nat) (n : Nat) (sid2 : Nat) :
    findStudy (taskStatusUpsert db tid sid uid n) sid2 = findStudy db sid2 := by
  unfold findStudy
  rw [taskStatusUpsert_studies]

theorem processBody_already_completed (tid : String) (sid : Nat)
    (l : List FileData) (uid : Option Nat) (cid : String) (db : DB)
    (st : ImagingStudy) (hfind : findStudy db sid = some st)
    (hst : st.status = "completed") :
    processBody tid sid l uid cid .noFault db =
      (.alreadyCompleted sid, taskStatusUpsert db tid sid uid l.length) := by
  simp [processBody, processBodyRun, findStudy_upsert, hfind, hst]

theorem run_lock_free (tid : String) (sid : Nat) (l : List FileData)
    (uid : Option Nat) (cid : String) (fault : Fault) (w : World)
    (h : cacheGet w.cache (lockKeyOf sid) = none) :
    process_dicom_images_async tid sid l uid cid fault w =
      ((processBody tid sid l uid cid fault w.db).1,
       { db := (processBody tid sid l uid cid fault w.db).2,
         cache := cacheDelete ⟨(lockKeyOf sid, tid) :: w.cache.entries⟩ (lockKeyOf sid) }) := by
  rcases hp : processBody tid sid l uid cid fault w.db with ⟨r, d⟩
  simp [process_dicom_images_async, cacheAdd, h, hp]

theorem run_lock_held (tid : String) (sid : Nat) (l : List FileData)
    (uid : Option Nat) (cid : String) (fault : Fault) (w : World)
    (holder : String)
    (h : cacheGet w.cache (lockKeyOf sid) = some holder) :
    process_dicom_images_async tid sid l uid cid fault w =
      (.skippedLock (some holder), w) := by
  simp [process_dicom_images_async, cacheAdd, h]

/-! ### Claim theorems -/

/-- C4: when distributed-lock acquisition on the study's key fails
(the key is already held), `process_dicom_images_async` returns the
`{'status': 'skipped', 'reason': 'already_processing', 'existing_task_id':
holder}` payload without raising and without touching any state. -/
theorem lock_contention_returns_skip (tid : String) (sid : Nat)
    (l : List FileData) (uid : Option Nat) (cid : String)
    (fault : Fault) (w : World) (holder : String)
    (h : cacheGet w.cache (lockKeyOf sid) = some holder) :
    process_dicom_images_async tid sid l uid cid fault w =
      (.skippedLock (some holder), w) :=
  run_lock_held tid sid l uid cid fault w holder h

/-- Witness for `lock_contention_returns_skip` at a held lock. -/
theorem lock_contention_returns_skip_witness :
    cacheGet wHeld.cache (lockKeyOf 5) = some "t0" ∧
    process_dicom_images_async "t1" 5 [fdGen 1 "a"] none "c" .noFault wHeld =
      (.skippedLock (some "t0"), wHeld) :=
  ⟨by decide, lock_contention_returns_skip "t1" 5 [fdGen 1 "a"] none "c" .noFault wHeld "t0" (by decide)⟩

/-- C5: every execution that acquired the distributed lock leaves the
study's lock key absent from the cache when it ends — whichever way it
ends (normal completion, a skip result, or the re-raised exception),
since the key is quantified over every fault oracle, batch and store. -/
theorem lock_released_after_run (tid : String) (sid : Nat)
    (l : List FileData) (uid : Option Nat) (cid : String)
    (fault : Fault) (w : World)
    (h : cacheGet w.cache (lockKeyOf sid) = none) :
    cacheGet ((process_dicom_images_async tid sid l uid cid fault w).2).cache
      (lockKeyOf sid) = none := by
  rw [run_lock_free tid sid l uid cid fault w h]
  exact cacheGet_delete_self _ _

/-- Witness for `lock_released_after_run` on a run that raises. -/
theorem lock_released_after_run_witness :
    cacheGet wFree.cache (lockKeyOf 5) = none ∧
    cacheGet ((process_dicom_images_async "t1" 5 [fdGen 1 "a"] none "c"
      (.atStart "store down") wFree).2).cache (lockKeyOf 5) = none :=
  ⟨by decide, lock_released_after_run "t1" 5 [fdGen 1 "a"] none "c" (.atStart "store down") wFree (by decide)⟩

/-- C1: a delivery whose study row has status `completed` at guard time
(the lock was acquirable and the guard was reached without an
infrastructure fault) returns `{'status': 'already_completed'}`, creates
or modifies no `DicomImage` rows, and leaves the study rows (and the
status-write trace) unchanged. -/
theorem guard_already_completed (tid : String) (sid : Nat)
    (l : List FileData) (uid : Option Nat) (cid : String) (w : World)
    (st : ImagingStudy)
    (hlock : cacheGet w.cache (lockKeyOf sid) = none)
    (hfind : findStudy w.db sid = some st)
    (hst : st.status = "completed") :
    (process_dicom_images_async tid sid l uid cid .noFault w).1 = .alreadyCompleted sid ∧
    (process_dicom_images_async tid sid l uid cid .noFault w).2.db.studies = w.db.studies ∧
    (process_dicom_images_async tid sid l uid cid .noFault w).2.db.images = w.db.images ∧
    (process_dicom_images_async tid sid l uid cid .noFault w).2.db.statusWrites = w.db.statusWrites := by
  have hb := processBody_already_completed tid sid l uid cid w.db st hfind hst
  rw [run_lock_free tid sid l uid cid .noFault w hlock, hb]
  exact ⟨rfl, taskStatusUpsert_studies .., taskStatusUpsert_images ..,
    taskStatusUpsert_statusWrites ..⟩

/-- Witness for `guard_already_completed` on a completed study. -/
theorem guard_already_completed_witness :
    cacheGet wDone.cache (lockKeyOf 5) = none ∧
    findStudy wDone.db 5 = some { stW with status := "completed" } ∧
    (process_dicom_images_async "t1" 5 [fdGen 1 "a"] none "c" .noFault wDone).1 =
      .alreadyCompleted 5 ∧
    (process_dicom_images_async "t1" 5 [fdGen 1 "a"] none "c" .noFault wDone).2.db.images =
      wDone.db.images :=
  ⟨by decide, by decide,
   (guard_already_completed "t1" 5 [fdGen 1 "a"] none "c" wDone
     { stW with status := "completed" } (by decide) (by decide) rfl).1,
   (guard_already_completed "t1" 5 [fdGen 1 "a"] none "c" wDone
     { stW with status := "completed" } (by decide) (by decide) rfl).2.2.1⟩

theorem taskStatusUpsert_patients (db : DB) (tid : String) (sid : Nat)
    (uid : Option Nat) (n : Nat) :
    (taskStatusUpsert db tid sid uid n).patients = db.patients := by
  unfold taskStatusUpsert; split <;> rfl

theorem saveStudy_images (db : DB) (st : ImagingStudy) :
    (saveStudy db st).images = db.images := rfl

theorem saveStudy_auditLogs (db : DB) (st : ImagingStudy) :
    (saveStudy db st).auditLogs = db.auditLogs := rfl

theorem saveStudy_patients (db : DB) (st : ImagingStudy) :
    (saveStudy db st).patients = db.patients := rfl

theorem auditAppend_studies (db : DB) (a : AuditLog) :
    (auditAppend db a).studies = db.studies := rfl

theorem auditAppend_images (db : DB) (a : AuditLog) :
    (auditAppend db a).images = db.images := rfl

theorem auditAppend_statusWrites (db : DB) (a : AuditLog) :
    (auditAppend db a).statusWrites = db.statusWrites := rfl

theorem find?_map_replace (l : List ImagingStudy) (sid : Nat)
    (st st2 : ImagingStudy)
    (h : l.find? (fun s => s.id == sid) = some st) (hid : st2.id = st.id) :
    (l.map (fun t => if t.id == st2.id then st2 else t)).find?
      (fun s => s.id == sid) = some st2 := by
  induction l with
  | nil => simp at h
  | cons a l ih =>
    by_cases ha : a.id = sid
    · rw [List.find?_cons_of_pos _ (by simpa using ha)] at h
      obtain rfl : a = st := Option.some.inj h
      have hrepl : (if a.id == st2.id then st2 else a) = st2 := by
        simp [hid]
      simp only [List.map_cons, hrepl]
      exact List.find?_cons_of_pos _ (by simp [hid, ha])
    · rw [List.find?_cons_of_neg _ (by simpa using ha)] at h
      have hstid : st.id = sid := by simpa using List.find?_some h
      have hne : ¬(a.id = st2.id) := by rw [hid, hstid]; exact ha
      have hrepl : (if a.id == st2.id then st2 else a) = a := by simp [hne]
      simp only [List.map_cons, hrepl]
      rw [List.find?_cons_of_neg _ (by simpa using ha)]
      exact ih h

theorem findStudy_save_of_found (db : DB) (sid : Nat) (st st2 : ImagingStudy)
    (hfind : findStudy db sid = some st) (hid : st2.id = st.id) :
    findStudy (saveStudy db st2) sid = some st2 := by
  unfold findStudy saveStudy at *
  exact find?_map_replace db.studies sid st st2 hfind hid

theorem processBody_guard_passes (tid : String) (sid : Nat)
    (l : List FileData) (uid : Option Nat) (cid : String) (db : DB)
    (st : ImagingStudy) (hfind : findStudy db sid = some st)
    (hst : st.status ≠ "completed") :
    processBody tid sid l uid cid .noFault db =
      ((.finished
          (processItems tid
            (markInProgressAndAudit tid sid cid uid st l.length
              (taskStatusUpsert db tid sid uid l.length)).1 l 0
            (markInProgressAndAudit tid sid cid uid st l.length
              (taskStatusUpsert db tid sid uid l.length)).2 [] [] []).2.1
          (processItems tid
            (markInProgressAndAudit tid sid cid uid st l.length
              (taskStatusUpsert db tid sid uid l.length)).1 l 0
            (markInProgressAndAudit tid sid cid uid st l.length
              (taskStatusUpsert db tid sid uid l.length)).2 [] [] []).2.2.1
          (processItems tid
            (markInProgressAndAudit tid sid cid uid st l.length
              (taskStatusUpsert db tid sid uid l.length)).1 l 0
            (markInProgressAndAudit tid sid cid uid st l.length
              (taskStatusUpsert db tid sid uid l.length)).2 [] [] []).2.2.2 tid),
        finalizeRun tid sid
          (markInProgressAndAudit tid sid cid uid st l.length
            (taskStatusUpsert db tid sid uid l.length)).1
          (processItems tid
            (markInProgressAndAudit tid sid cid uid st l.length
              (taskStatusUpsert db tid sid uid l.length)).1 l 0
            (markInProgressAndAudit tid sid cid uid st l.length
              (taskStatusUpsert db tid sid uid l.length)).2 [] [] []).2.1
          (processItems tid
            (markInProgressAndAudit tid sid cid uid st l.length
              (taskStatusUpsert db tid sid uid l.length)).1 l 0
            (markInProgressAndAudit tid sid cid uid st l.length
              (taskStatusUpsert db tid sid uid l.length)).2 [] [] []).2.2.1
          (processItems tid
            (markInProgressAndAudit tid sid cid uid st l.length
              (taskStatusUpsert db tid sid uid l.length)).1 l 0
            (markInProgressAndAudit tid sid cid uid st l.length
              (taskStatusUpsert db tid sid uid l.length)).2 [] [] []).2.2.2
          l.length
          (processItems tid
            (markInProgressAndAudit tid sid cid uid st l.length
              (taskStatusUpsert db tid sid uid l.length)).1 l 0
            (markInProgressAndAudit tid sid cid uid st l.length
              (taskStatusUpsert db tid sid uid l.length)).2 [] [] []).1) := by
  rcases hmd : markInProgressAndAudit tid sid cid uid st l.length
    (taskStatusUpsert db tid sid uid l.length) with ⟨s1, d3⟩
  rcases hpi : processItems tid s1 l 0 d3 [] [] [] with ⟨d4, c, s, e⟩
  simp [processBody, processBodyRun, findStudy_upsert, hfind, hst, hmd, hpi]

theorem findStudy_auditAppend (db : DB) (a : AuditLog) (sid : Nat) :
    findStudy (auditAppend db a) sid = findStudy db sid := rfl

/-- C9: when the lock and the idempotency guard both pass, the study row
is saved as `in_progress` with its prior error message cleared, and one
audit record is appended with actor type `system`, action `process`,
resource type `ImagingStudy`, the study's id, and the tenant id of the
study's patient's hospital — all before any batch item is processed (the
image table is still untouched at that point, and the run's result is
exactly the item loop started from that marked state). -/
theorem mark_in_progress_and_audit_before_items
    (tid : String) (sid : Nat) (l : List FileData) (uid : Option Nat)
    (cid : String) (w : World) (st : ImagingStudy) (pat : Patient)
    (hlock : cacheGet w.cache (lockKeyOf sid) = none)
    (hfind : findStudy w.db sid = some st)
    (hst : st.status ≠ "completed")
    (hpat : w.db.patients.find? (fun p => p.id == st.patient_id) = some pat) :
    (markInProgressAndAudit tid sid cid uid st l.length
        (taskStatusUpsert w.db tid sid uid l.length)).1 =
      { st with status := "in_progress", error_message := "" } ∧
    (markInProgressAndAudit tid sid cid uid st l.length
        (taskStatusUpsert w.db tid sid uid l.length)).2.auditLogs =
      w.db.auditLogs ++
        [{ actor_type := "system", action := "process",
           resource_type := "ImagingStudy", resource_id := sid,
           tenant_id := some pat.hospital_id,
           details := [("task_id", tid), ("correlation_id", cid),
                       ("total_files", toString l.length),
                       ("initiated_by_user_id", optNatStr uid)] }] ∧
    findStudy (markInProgressAndAudit tid sid cid uid st l.length
        (taskStatusUpsert w.db tid sid uid l.length)).2 sid =
      some { st with status := "in_progress", error_message := "" } ∧
    (markInProgressAndAudit tid sid cid uid st l.length
        (taskStatusUpsert w.db tid sid uid l.length)).2.images = w.db.images ∧
    (process_dicom_images_async tid sid l uid cid .noFault w).1 =
      .finished
        (processItems tid
          (markInProgressAndAudit tid sid cid uid st l.length
            (taskStatusUpsert w.db tid sid uid l.length)).1 l 0
          (markInProgressAndAudit tid sid cid uid st l.length
            (taskStatusUpsert w.db tid sid uid l.length)).2 [] [] []).2.1
        (processItems tid
          (markInProgressAndAudit tid sid cid uid st l.length
            (taskStatusUpsert w.db tid sid uid l.length)).1 l 0
          (markInProgressAndAudit tid sid cid uid st l.length
            (taskStatusUpsert w.db tid sid uid l.length)).2 [] [] []).2.2.1
        (processItems tid
          (markInProgressAndAudit tid sid cid uid st l.length
            (taskStatusUpsert w.db tid sid uid l.length)).1 l 0
          (markInProgressAndAudit tid sid cid uid st l.length
            (taskStatusUpsert w.db tid sid uid l.length)).2 [] [] []).2.2.2 tid := by
  have htenant : tenantOf
      (saveStudy (taskStatusUpsert w.db tid sid uid l.length)
        { st with status := "in_progress", error_message := "" })
      { st with status := "in_progress", error_message := "" } =
      some pat.hospital_id := by
    unfold tenantOf
    rw [saveStudy_patients, taskStatusUpsert_patients]
    simp only []
    rw [hpat]
    rfl
  refine ⟨rfl, ?_, ?_, ?_, ?_⟩
  · show (auditAppend (saveStudy (taskStatusUpsert w.db tid sid uid l.length)
        { st with status := "in_progress", error_message := "" }) _).auditLogs = _
    simp [auditAppend, saveStudy_auditLogs, taskStatusUpsert_auditLogs, htenant]
  · show findStudy (auditAppend (saveStudy (taskStatusUpsert w.db tid sid uid l.length)
        { st with status := "in_progress", error_message := "" }) _) sid = _
    rw [findStudy_auditAppend]
    exact findStudy_save_of_found _ sid st _ ((findStudy_upsert ..).trans hfind) rfl
  · show (auditAppend (saveStudy (taskStatusUpsert w.db tid sid uid l.length)
        { st with status := "in_progress", error_message := "" }) _).images = _
    simp [auditAppend, saveStudy_images, taskStatusUpsert_images]
  · rw [run_lock_free tid sid l uid cid .noFault w hlock,
        processBody_guard_passes tid sid l uid cid w.db st hfind hst]

/-- Witness for `mark_in_progress_and_audit_before_items` on a pending
study. -/
theorem mark_in_progress_and_audit_before_items_witness :
    (cacheGet wFree.cache (lockKeyOf 5) = none ∧
     findStudy wFree.db 5 = some stW ∧
     stW.status ≠ "completed" ∧
     wFree.db.patients.find? (fun p => p.id == stW.patient_id) =
       some { id := 1, hospital_id := 1, medical_record_number := "M1" }) ∧
    (markInProgressAndAudit "t1" 5 "c" none stW [fdGen 1 "a"].length
        (taskStatusUpsert wFree.db "t1" 5 none [fdGen 1 "a"].length)).2.auditLogs =
      wFree.db.auditLogs ++
        [{ actor_type := "system", action := "process",
           resource_type := "ImagingStudy", resource_id := 5,
           tenant_id := some 1,
           details := [("task_id", "t1"), ("correlation_id", "c"),
                       ("total_files", "1"),
                       ("initiated_by_user_id", optNatStr none)] }] :=
  ⟨⟨by decide, by decide, by decide, by decide⟩,
   (mark_in_progress_and_audit_before_items "t1" 5 [fdGen 1 "a"] none "c" wFree stW
     { id := 1, hospital_id := 1, medical_record_number := "M1" }
     (by decide) (by decide) (by decide) (by decide)).2.1⟩

theorem taskStatusUpdate_core (db : DB) (tid : String) (f : TaskStatus → TaskStatus) :
    SameCoreTables db (taskStatusUpdate db tid f) :=
  ⟨rfl, rfl, rfl, rfl, rfl⟩

theorem dicomImageCreate_cases (db : DB) (data : ImageData) (fname : String)
    (fc : Bool) :
    dicomImageCreate db data fname fc = .error uidConstraintMsg ∨
    dicomImageCreate db data fname fc = .error instanceConstraintMsg ∨
    ∃ im : DicomImage, dicomImageCreate db data fname fc = .ok
      (im, { db with images := db.images ++ [im], nextImageId := db.nextImageId + 1 }) := by
  unfold dicomImageCreate
  split
  · exact .inl rfl
  · split
    · exact .inr (.inl rfl)
    · exact .inr (.inr ⟨_, rfl⟩)

theorem createAsOutcome_db_cases (db : DB) (data : ImageData)
    (fname dn : String) (fc : Bool) :
    (createAsOutcome db data fname dn fc).2 = db ∨
    ∃ im : DicomImage, (createAsOutcome db data fname dn fc).2 =
      { db with images := db.images ++ [im], nextImageId := db.nextImageId + 1 } := by
  rcases dicomImageCreate_cases db data dn fc with h | h | ⟨im, h⟩
  · simp [createAsOutcome, h]
  · simp [createAsOutcome, h]
  · right
    exact ⟨im, by simp [createAsOutcome, h]⟩

theorem processOneItem_db_cases (study : ImagingStudy) (fd : FileData) (db : DB) :
    (processOneItem study fd db).2 = db ∨
    ∃ im : DicomImage, (processOneItem study fd db).2 =
      { db with images := db.images ++ [im], nextImageId := db.nextImageId + 1 } := by
  cases hb : fd.behavior with
  | raisesMsg m => exact .inl (by simp [processOneItem, hb])
  | notDicom =>
    simp only [processOneItem, hb]
    exact createAsOutcome_db_cases ..
  | dicomParseFailed =>
    simp only [processOneItem, hb]
    exact createAsOutcome_db_cases ..
  | dicom u meta conv =>
    simp only [processOneItem, hb]
    split
    · exact .inl rfl
    · split
      · exact createAsOutcome_db_cases ..
      · exact createAsOutcome_db_cases ..

theorem sameCoreTables_refl (db : DB) : SameCoreTables db db :=
  ⟨rfl, rfl, rfl, rfl, rfl⟩

theorem sameCoreTables_trans {db0 db1 db2 : DB}
    (h1 : SameCoreTables db0 db1) (h2 : SameCoreTables db1 db2) :
    SameCoreTables db0 db2 := by
  obtain ⟨a1, b1, c1, d1, e1⟩ := h1
  obtain ⟨a2, b2, c2, d2, e2⟩ := h2
  exact ⟨a2.trans a1, b2.trans b1, c2.trans c1, d2.trans d1, e2.trans e1⟩

theorem processOneItem_core (study : ImagingStudy) (fd : FileData) (db : DB) :
    SameCoreTables db (processOneItem study fd db).2 := by
  rcases processOneItem_db_cases study fd db with h | ⟨im, h⟩
  · rw [h]; exact sameCoreTables_refl db
  · rw [h]; exact ⟨rfl, rfl, rfl, rfl, rfl⟩

theorem processItems_core (tid : String) (study : ImagingStudy)
    (l : List FileData) : ∀ (idx : Nat) (db : DB) (cs : List CreatedInfo)
    (ss : List SkippedInfo) (es : List String),
    SameCoreTables db (processItems tid study l idx db cs ss es).1 := by
  induction l with
  | nil => intro idx db cs ss es; exact sameCoreTables_refl db
  | cons fd rest ih =>
    intro idx db cs ss es
    unfold processItems
    rcases hone : processOneItem study fd (taskStatusSetProcessed db tid idx)
      with ⟨outcome, db1⟩
    have hcore1 : SameCoreTables db db1 := by
      have ha := taskStatusUpdate_core db tid (fun t => { t with processed_items := idx })
      have hb := processOneItem_core study fd (taskStatusSetProcessed db tid idx)
      rw [hone] at hb
      exact sameCoreTables_trans ha hb
    cases outcome with
    | created info =>
      simp only [hone]
      exact sameCoreTables_trans hcore1 (ih (idx + 1) db1 (cs ++ [info]) ss es)
    | skippedDup info =>
      simp only [hone]
      exact sameCoreTables_trans hcore1 (ih (idx + 1) db1 cs (ss ++ [info]) es)
    | errored msg =>
      simp only [hone]
      have hinc := taskStatusUpdate_core db1 tid (fun t => { t with failed_items := t.failed_items + 1 })
      exact sameCoreTables_trans (sameCoreTables_trans hcore1 hinc)
        (ih (idx + 1) (taskStatusIncFailed db1 tid) cs ss (es ++ [msg]))

theorem markInProgressAndAudit_statusWrites (tid : String) (sid : Nat)
    (cid : String) (uid : Option Nat) (st : ImagingStudy) (n : Nat) (db : DB) :
    (markInProgressAndAudit tid sid cid uid st n db).2.statusWrites =
      db.statusWrites ++ [(st.id, "in_progress")] := rfl

theorem markInProgressAndAudit_fst_id (tid : String) (sid : Nat)
    (cid : String) (uid : Option Nat) (st : ImagingStudy) (n : Nat) (db : DB) :
    (markInProgressAndAudit tid sid cid uid st n db).1.id = st.id := rfl

theorem finalizeRun_statusWrites (tid : String) (sid : Nat)
    (study : ImagingStudy) (c : List CreatedInfo) (s : List SkippedInfo)
    (e : List String) (total : Nat) (db : DB) :
    (finalizeRun tid sid study c s e total db).statusWrites =
      db.statusWrites ++ [(study.id, if e.isEmpty then "completed" else "failed")] := by
  unfold finalizeRun
  split <;> simp_all [taskStatusUpdate, auditAppend, saveStudy, finalStudyRow]

theorem findStudy_any (db : DB) (sid : Nat) (st : ImagingStudy)
    (hfind : findStudy db sid = some st) :
    db.studies.any (fun s => s.id == sid) = true := by
  unfold findStudy at hfind
  have hp := List.find?_some hfind
  exact List.any_eq_true.mpr ⟨st, List.mem_of_find?_eq_some hfind, hp⟩

theorem findStudy_id (db : DB) (sid : Nat) (st : ImagingStudy)
    (hfind : findStudy db sid = some st) : st.id = sid := by
  unfold findStudy at hfind
  have hp := List.find?_some hfind
  simpa using hp

theorem finalStudyRow_id (study : ImagingStudy) (e : List String) :
    (finalStudyRow study e).id = study.id := by
  unfold finalStudyRow; split <;> rfl

theorem finalStudyRow_status (study : ImagingStudy) (e : List String) :
    (finalStudyRow study e).status =
      (if e.isEmpty then "completed" else "failed") := by
  unfold finalStudyRow; split <;> simp_all

theorem finalStudyRow_of_errors (study : ImagingStudy) (e : List String)
    (he : e.isEmpty = false) :
    finalStudyRow study e =
      { study with
        status := "failed"
        error_message := String.intercalate "\n" (e.take 3) } := by
  unfold finalStudyRow
  rw [he]
  simp

theorem saveStudy_statusWrites (db : DB) (st : ImagingStudy) :
    (saveStudy db st).statusWrites = db.statusWrites ++ [(st.id, st.status)] := rfl

theorem taskStatusSetFailedMsg_statusWrites (db : DB) (tid msg : String) :
    (taskStatusSetFailedMsg db tid msg).statusWrites = db.statusWrites := rfl

theorem studiesMarkFailedById_statusWrites (db : DB) (sid : Nat) (msg : String)
    (h : db.studies.any (fun s => s.id == sid) = true) :
    (studiesMarkFailedById db sid msg).statusWrites =
      db.statusWrites ++ [(sid, "failed")] := by
  unfold studiesMarkFailedById
  rw [if_pos h]

theorem processBodyRun_already_completed (tid : String) (sid : Nat)
    (l : List FileData) (uid : Option Nat) (cid : String)
    (lf : Option String) (db : DB) (st : ImagingStudy)
    (hfind : findStudy db sid = some st) (hst : st.status = "completed") :
    processBodyRun tid sid l uid cid lf db =
      (.alreadyCompleted sid, taskStatusUpsert db tid sid uid l.length) := by
  simp [processBodyRun, findStudy_upsert, hfind, hst]

theorem processBodyRun_guard_passes_late (tid : String) (sid : Nat)
    (l : List FileData) (uid : Option Nat) (cid : String) (m : String)
    (db : DB) (st : ImagingStudy) (hfind : findStudy db sid = some st)
    (hst : st.status ≠ "completed") :
    processBodyRun tid sid l uid cid (some m) db =
      (.raised m,
       taskStatusSetFailedMsg
         (studiesMarkFailedById
           (saveStudy
             (processItems tid
               (markInProgressAndAudit tid sid cid uid st l.length
                 (taskStatusUpsert db tid sid uid l.length)).1 l 0
               (markInProgressAndAudit tid sid cid uid st l.length
                 (taskStatusUpsert db tid sid uid l.length)).2 [] [] []).1
             (finalStudyRow
               (markInProgressAndAudit tid sid cid uid st l.length
                 (taskStatusUpsert db tid sid uid l.length)).1
               (processItems tid
                 (markInProgressAndAudit tid sid cid uid st l.length
                   (taskStatusUpsert db tid sid uid l.length)).1 l 0
                 (markInProgressAndAudit tid sid cid uid st l.length
                   (taskStatusUpsert db tid sid uid l.length)).2 [] [] []).2.2.2))
           sid (m.take 500)) tid m) := by
  rcases hmd : markInProgressAndAudit tid sid cid uid st l.length
    (taskStatusUpsert db tid sid uid l.length) with ⟨s1, d3⟩
  rcases hpi : processItems tid s1 l 0 d3 [] [] [] with ⟨d4, c, s, e⟩
  simp [processBodyRun, findStudy_upsert, hfind, hst, hmd, hpi]

/-- C6 (amended): every status value the orchestrator writes to the
study row is one of `in_progress`, `completed`, `failed` (so together
with the initial value all statuses taken lie in the declared set). A
delivery with no unexpected exception writes nothing (lock contention or
the completed-guard) or `in_progress` followed by `completed`/`failed`,
where the transition into `in_progress` is admitted from any
non-`completed` initial status (including `archived`), not only from
`pending`/`failed`. An unexpected exception adds a defensive `failed`
write from whatever status the row then has: raised before the guard it
writes `failed` directly — even from `completed` — and raised after the
final save it follows the `in_progress` and `completed`/`failed` writes,
so `completed → failed` transitions also occur. -/
theorem status_writes_amended (tid : String) (sid : Nat)
    (l : List FileData) (uid : Option Nat) (cid : String)
    (fault : Fault) (w : World) (st : ImagingStudy)
    (hfind : findStudy w.db sid = some st)
    (htrace : w.db.statusWrites = []) :
    (∀ e ∈ (process_dicom_images_async tid sid l uid cid fault w).2.db.statusWrites,
       e.2 = "in_progress" ∨ e.2 = "completed" ∨ e.2 = "failed") ∧
    ((process_dicom_images_async tid sid l uid cid fault w).2.db.statusWrites = [] ∨
     (∃ m, fault = .atStart m ∧
       (process_dicom_images_async tid sid l uid cid fault w).2.db.statusWrites =
         [(sid, "failed")]) ∨
     (fault = .noFault ∧ st.status ≠ "completed" ∧
       ((process_dicom_images_async tid sid l uid cid fault w).2.db.statusWrites =
          [(sid, "in_progress"), (sid, "completed")] ∨
        (process_dicom_images_async tid sid l uid cid fault w).2.db.statusWrites =
          [(sid, "in_progress"), (sid, "failed")])) ∨
     (∃ m, fault = .atFinalize m ∧ st.status ≠ "completed" ∧
       ((process_dicom_images_async tid sid l uid cid fault w).2.db.statusWrites =
          [(sid, "in_progress"), (sid, "completed"), (sid, "failed")] ∨
        (process_dicom_images_async tid sid l uid cid fault w).2.db.statusWrites =
          [(sid, "in_progress"), (sid, "failed"), (sid, "failed")]))) := by
  have hup : findStudy (taskStatusUpsert w.db tid sid uid l.length) sid = some st := by
    rw [findStudy_upsert]; exact hfind
  have hshape : (process_dicom_images_async tid sid l uid cid fault w).2.db.statusWrites = [] ∨
      (∃ m, fault = .atStart m ∧
        (process_dicom_images_async tid sid l uid cid fault w).2.db.statusWrites =
          [(sid, "failed")]) ∨
      (fault = .noFault ∧ st.status ≠ "completed" ∧
        ((process_dicom_images_async tid sid l uid cid fault w).2.db.statusWrites =
           [(sid, "in_progress"), (sid, "completed")] ∨
         (process_dicom_images_async tid sid l uid cid fault w).2.db.statusWrites =
           [(sid, "in_progress"), (sid, "failed")])) ∨
      (∃ m, fault = .atFinalize m ∧ st.status ≠ "completed" ∧
        ((process_dicom_images_async tid sid l uid cid fault w).2.db.statusWrites =
           [(sid, "in_progress"), (sid, "completed"), (sid, "failed")] ∨
         (process_dicom_images_async tid sid l uid cid fault w).2.db.statusWrites =
           [(sid, "in_progress"), (sid, "failed"), (sid, "failed")])) := by
    cases hc : cacheGet w.cache (lockKeyOf sid) with
    | some holder =>
      rw [run_lock_held tid sid l uid cid fault w holder hc]
      exact .inl htrace
    | none =>
      rw [run_lock_free tid sid l uid cid fault w hc]
      cases fault with
      | atStart m =>
        refine .inr (.inl ⟨m, rfl, ?_⟩)
        show (processBody tid sid l uid cid (.atStart m) w.db).2.statusWrites = _
        simp [processBody, studiesMarkFailedById, findStudy_any w.db sid st hfind, htrace]
      | noFault =>
        by_cases hst : st.status = "completed"
        · refine .inl ?_
          show (processBody tid sid l uid cid .noFault w.db).2.statusWrites = _
          rw [processBody_already_completed tid sid l uid cid w.db st hfind hst,
              taskStatusUpsert_statusWrites]
          exact htrace
        · refine .inr (.inr (.inl ⟨rfl, hst, ?_⟩))
          have hrw : (processBody tid sid l uid cid .noFault w.db).2.statusWrites =
              [(sid, "in_progress"),
               (sid, if (processItems tid
                  (markInProgressAndAudit tid sid cid uid st l.length
                    (taskStatusUpsert w.db tid sid uid l.length)).1 l 0
                  (markInProgressAndAudit tid sid cid uid st l.length
                    (taskStatusUpsert w.db tid sid uid l.length)).2 [] [] []).2.2.2.isEmpty
                then "completed" else "failed")] := by
            rw [processBody_guard_passes tid sid l uid cid w.db st hfind hst]
            show (finalizeRun tid sid _ _ _ _ l.length _).statusWrites = _
            rw [finalizeRun_statusWrites]
            have hloop := (processItems_core tid
              (markInProgressAndAudit tid sid cid uid st l.length
                (taskStatusUpsert w.db tid sid uid l.length)).1 l 0
              (markInProgressAndAudit tid sid cid uid st l.length
                (taskStatusUpsert w.db tid sid uid l.length)).2 [] [] []).2.2.2.2
            rw [hloop, markInProgressAndAudit_statusWrites,
                taskStatusUpsert_statusWrites, htrace,
                markInProgressAndAudit_fst_id, findStudy_id w.db sid st hfind]
            rfl
          cases he : (processItems tid
              (markInProgressAndAudit tid sid cid uid st l.length
                (taskStatusUpsert w.db tid sid uid l.length)).1 l 0
              (markInProgressAndAudit tid sid cid uid st l.length
                (taskStatusUpsert w.db tid sid uid l.length)).2 [] [] []).2.2.2.isEmpty
          · right
            show (processBody tid sid l uid cid .noFault w.db).2.statusWrites = _
            rw [hrw, he]
            rfl
          · left
            show (processBody tid sid l uid cid .noFault w.db).2.statusWrites = _
            rw [hrw, he]
            rfl
      | atFinalize m =>
        by_cases hst : st.status = "completed"
        · refine .inl ?_
          show (processBodyRun tid sid l uid cid (some m) w.db).2.statusWrites = _
          rw [processBodyRun_already_completed tid sid l uid cid (some m) w.db st hfind hst,
              taskStatusUpsert_statusWrites]
          exact htrace
        · refine .inr (.inr (.inr ⟨m, rfl, hst, ?_⟩))
          have hfindd3 : findStudy
              (markInProgressAndAudit tid sid cid uid st l.length
                (taskStatusUpsert w.db tid sid uid l.length)).2 sid =
              some { st with status := "in_progress", error_message := "" } :=
            findStudy_save_of_found _ sid st _ hup rfl
          have hstud := (processItems_core tid
            (markInProgressAndAudit tid sid cid uid st l.length
              (taskStatusUpsert w.db tid sid uid l.length)).1 l 0
            (markInProgressAndAudit tid sid cid uid st l.length
              (taskStatusUpsert w.db tid sid uid l.length)).2 [] [] []).2.2.1
          have hfind4 : findStudy (processItems tid
              (markInProgressAndAudit tid sid cid uid st l.length
                (taskStatusUpsert w.db tid sid uid l.length)).1 l 0
              (markInProgressAndAudit tid sid cid uid st l.length
                (taskStatusUpsert w.db tid sid uid l.length)).2 [] [] []).1 sid =
              some { st with status := "in_progress", error_message := "" } := by
            unfold findStudy
            rw [hstud]
            exact hfindd3
          have hfind5 := findStudy_save_of_found _ sid
            { st with status := "in_progress", error_message := "" }
            (finalStudyRow
              (markInProgressAndAudit tid sid cid uid st l.length
                (taskStatusUpsert w.db tid sid uid l.length)).1
              (processItems tid
                (markInProgressAndAudit tid sid cid uid st l.length
                  (taskStatusUpsert w.db tid sid uid l.length)).1 l 0
                (markInProgressAndAudit tid sid cid uid st l.length
                  (taskStatusUpsert w.db tid sid uid l.length)).2 [] [] []).2.2.2)
            hfind4 (finalStudyRow_id _ _)
          have hany := findStudy_any _ sid _ hfind5
          have hloop := (processItems_core tid
            (markInProgressAndAudit tid sid cid uid st l.length
              (taskStatusUpsert w.db tid sid uid l.length)).1 l 0
            (markInProgressAndAudit tid sid cid uid st l.length
              (taskStatusUpsert w.db tid sid uid l.length)).2 [] [] []).2.2.2.2
          have hrw : (processBody tid sid l uid cid (.atFinalize m) w.db).2.statusWrites =
              [(sid, "in_progress"),
               (sid, if (processItems tid
                  (markInProgressAndAudit tid sid cid uid st l.length
                    (taskStatusUpsert w.db tid sid uid l.length)).1 l 0
                  (markInProgressAndAudit tid sid cid uid st l.length
                    (taskStatusUpsert w.db tid sid uid l.length)).2 [] [] []).2.2.2.isEmpty
                then "completed" else "failed"),
               (sid, "failed")] := by
            show (processBodyRun tid sid l uid cid (some m) w.db).2.statusWrites = _
            rw [processBodyRun_guard_passes_late tid sid l uid cid m w.db st hfind hst]
            show (taskStatusSetFailedMsg _ tid m).statusWrites = _
            rw [taskStatusSetFailedMsg_statusWrites,
                studiesMarkFailedById_statusWrites _ sid _ hany,
                saveStudy_statusWrites, hloop, markInProgressAndAudit_statusWrites,
                taskStatusUpsert_statusWrites, htrace, finalStudyRow_id,
                finalStudyRow_status, markInProgressAndAudit_fst_id,
                findStudy_id w.db sid st hfind]
            rfl
          cases he : (processItems tid
              (markInProgressAndAudit tid sid cid uid st l.length
                (taskStatusUpsert w.db tid sid uid l.length)).1 l 0
              (markInProgressAndAudit tid sid cid uid st l.length
                (taskStatusUpsert w.db tid sid uid l.length)).2 [] [] []).2.2.2.isEmpty
          · right
            show (processBody tid sid l uid cid (.atFinalize m) w.db).2.statusWrites = _
            rw [hrw, he]
            rfl
          · left
            show (processBody tid sid l uid cid (.atFinalize m) w.db).2.statusWrites = _
            rw [hrw, he]
            rfl
  refine ⟨?_, hshape⟩
  rcases hshape with h | ⟨m, _, h⟩ | ⟨_, _, h | h⟩ | ⟨m, _, _, h | h⟩
  · rw [h]; intro e he; exact absurd he (List.not_mem_nil e)
  · rw [h]; intro e he
    simp only [List.mem_cons, List.not_mem_nil, or_false] at he
    subst he; exact .inr (.inr rfl)
  · rw [h]; intro e he
    simp only [List.mem_cons, List.not_mem_nil, or_false] at he
    rcases he with rfl | rfl
    · exact .inl rfl
    · exact .inr (.inl rfl)
  · rw [h]; intro e he
    simp only [List.mem_cons, List.not_mem_nil, or_false] at he
    rcases he with rfl | rfl
    · exact .inl rfl
    · exact .inr (.inr rfl)
  · rw [h]; intro e he
    simp only [List.mem_cons, List.not_mem_nil, or_false] at he
    rcases he with rfl | rfl | rfl
    · exact .inl rfl
    · exact .inr (.inl rfl)
    · exact .inr (.inr rfl)
  · rw [h]; intro e he
    simp only [List.mem_cons, List.not_mem_nil, or_false] at he
    rcases he with rfl | rfl | rfl
    · exact .inl rfl
    · exact .inr (.inr rfl)
    · exact .inr (.inr rfl)

/-- C6 counterexample, three violating runs of the orchestrator:
(a) a study whose status is `archived` at guard time is not protected by
the guard (which only checks `completed`) and is transitioned
`archived → in_progress → completed`;
(b) an unexpected exception before the guard makes the defensive handler
write `failed` even on a `completed` study — a `completed → failed`
transition with no `in_progress` in between;
(c) an unexpected exception after the final save yields the trace
`in_progress → completed → failed`, again ending in `completed → failed`.
Each contradicts "every status transition follows pending/failed →
in_progress → {completed, failed}; no other transition ever occurs". -/
theorem status_transition_counterexample :
    (findStudy wArch.db 5 = some { stW with status := "archived" } ∧
     (process_dicom_images_async "t1" 5 [] none "c" .noFault wArch).2.db.statusWrites =
       [(5, "in_progress"), (5, "completed")]) ∧
    (findStudy wDone.db 5 = some { stW with status := "completed" } ∧
     (process_dicom_images_async "t2" 5 [] none "c"
       (.atStart "store down") wDone).2.db.statusWrites = [(5, "failed")]) ∧
    (findStudy wFree.db 5 = some stW ∧ stW.status = "pending" ∧
     (process_dicom_images_async "t3" 5 [] none "c"
       (.atFinalize "late crash") wFree).2.db.statusWrites =
       [(5, "in_progress"), (5, "completed"), (5, "failed")]) :=
  ⟨⟨by decide, by decide⟩, ⟨by decide, by decide⟩, ⟨by decide, rfl, by decide⟩⟩

/-- Witness for `status_writes_amended` on the archived study. -/
theorem status_writes_amended_witness :
    (findStudy wArch.db 5 = some { stW with status := "archived" } ∧
     wArch.db.statusWrites = []) ∧
    ((process_dicom_images_async "t1" 5 [] none "c" .noFault wArch).2.db.statusWrites = [] ∨
     (∃ m, Fault.noFault = Fault.atStart m ∧
       (process_dicom_images_async "t1" 5 [] none "c" .noFault wArch).2.db.statusWrites =
         [(5, "failed")]) ∨
     (Fault.noFault = Fault.noFault ∧
      ImagingStudy.status { stW with status := "archived" } ≠ "completed" ∧
       ((process_dicom_images_async "t1" 5 [] none "c" .noFault wArch).2.db.statusWrites =
          [(5, "in_progress"), (5, "completed")] ∨
        (process_dicom_images_async "t1" 5 [] none "c" .noFault wArch).2.db.statusWrites =
          [(5, "in_progress"), (5, "failed")])) ∨
     (∃ m, Fault.noFault = Fault.atFinalize m ∧
      ImagingStudy.status { stW with status := "archived" } ≠ "completed" ∧
       ((process_dicom_images_async "t1" 5 [] none "c" .noFault wArch).2.db.statusWrites =
          [(5, "in_progress"), (5, "completed"), (5, "failed")] ∨
        (process_dicom_images_async "t1" 5 [] none "c" .noFault wArch).2.db.statusWrites =
          [(5, "in_progress"), (5, "failed"), (5, "failed")]))) :=
  ⟨⟨by decide, rfl⟩,
   (status_writes_amended "t1" 5 [] none "c" .noFault wArch
     { stW with status := "archived" } (by decide) rfl).2⟩

theorem dicomImageCreate_uidUnique (db : DB) (data : ImageData)
    (fname : String) (fc : Bool) (im : DicomImage) (db2 : DB)
    (h : dicomImageCreate db data fname fc = .ok (im, db2))
    (hu : UidUnique db.images) : UidUnique db2.images := by
  unfold dicomImageCreate at h
  split at h
  · exact absurd h (by simp)
  · split at h
    · exact absurd h (by simp)
    · rename_i hc1 hc2
      have hdb : db2 = { db with
          images := db.images ++
            [{ id := db.nextImageId, study_id := data.study_id,
               instance_number := data.instance_number, is_dicom := data.is_dicom,
               sop_instance_uid := data.sop_uid, meta := data.meta,
               filename := fname, from_conversion := fc }]
          nextImageId := db.nextImageId + 1 } :=
        (congrArg Prod.snd (Except.ok.inj h)).symm
      rw [hdb]
      unfold UidUnique
      rw [List.pairwise_append]
      refine ⟨hu, List.pairwise_singleton .., ?_⟩
      intro a ha b hb u hau hbu
      rw [List.mem_singleton] at hb
      subst hb
      have hsop : data.sop_uid = some u := hbu
      exact hc1 (by rw [hsop]; exact List.any_eq_true.mpr ⟨a, ha, by simp [hau]⟩)

theorem createAsOutcome_uidUnique (db : DB) (data : ImageData)
    (fname dn : String) (fc : Bool) (hu : UidUnique db.images) :
    UidUnique ((createAsOutcome db data fname dn fc).2).images := by
  unfold createAsOutcome
  cases hc : dicomImageCreate db data dn fc with
  | error m => simpa using hu
  | ok p =>
    rcases p with ⟨im, db2⟩
    simp only []
    exact dicomImageCreate_uidUnique db data dn fc im db2 hc hu

theorem createAsOutcome_ne_skipped (db : DB) (data : ImageData)
    (fname dn : String) (fc : Bool) (info : SkippedInfo) :
    (createAsOutcome db data fname dn fc).1 ≠ .skippedDup info := by
  unfold createAsOutcome
  cases hc : dicomImageCreate db data dn fc with
  | error m => simp
  | ok p => rcases p with ⟨im, db2⟩; simp

theorem processOneItem_uidUnique (study : ImagingStudy) (fd : FileData)
    (db : DB) (hu : UidUnique db.images) :
    UidUnique ((processOneItem study fd db).2).images := by
  cases hb : fd.behavior with
  | raisesMsg m => simpa [processOneItem, hb] using hu
  | notDicom =>
    simp only [processOneItem, hb]
    exact createAsOutcome_uidUnique _ _ _ _ _ hu
  | dicomParseFailed =>
    simp only [processOneItem, hb]
    exact createAsOutcome_uidUnique _ _ _ _ _ hu
  | dicom u meta conv =>
    simp only [processOneItem, hb]
    split
    · simpa using hu
    · split
      · exact createAsOutcome_uidUnique _ _ _ _ _ hu
      · exact createAsOutcome_uidUnique _ _ _ _ _ hu

theorem taskStatusUpdate_images (db : DB) (tid : String)
    (f : TaskStatus → TaskStatus) :
    (taskStatusUpdate db tid f).images = db.images := rfl

theorem processItems_uidUnique (tid : String) (study : ImagingStudy)
    (l : List FileData) : ∀ (idx : Nat) (db : DB) (cs : List CreatedInfo)
    (ss : List SkippedInfo) (es : List String), UidUnique db.images →
    UidUnique ((processItems tid study l idx db cs ss es).1).images := by
  induction l with
  | nil => intro idx db cs ss es hu; exact hu
  | cons fd rest ih =>
    intro idx db cs ss es hu
    unfold processItems
    have hu0 : UidUnique ((taskStatusSetProcessed db tid idx)).images := by
      show UidUnique ((taskStatusUpdate db tid _)).images
      rw [taskStatusUpdate_images]; exact hu
    have hu1 := processOneItem_uidUnique study fd (taskStatusSetProcessed db tid idx) hu0
    rcases hone : processOneItem study fd (taskStatusSetProcessed db tid idx)
      with ⟨outcome, db1⟩
    rw [hone] at hu1
    cases outcome with
    | created info => simp only [hone]; exact ih (idx + 1) db1 (cs ++ [info]) ss es hu1
    | skippedDup info => simp only [hone]; exact ih (idx + 1) db1 cs (ss ++ [info]) es hu1
    | errored msg =>
      simp only [hone]
      refine ih (idx + 1) (taskStatusIncFailed db1 tid) cs ss (es ++ [msg]) ?_
      show UidUnique ((taskStatusUpdate db1 tid _)).images
      rw [taskStatusUpdate_images]; exact hu1

theorem studiesMarkFailedById_images (db : DB) (sid : Nat) (msg : String) :
    (studiesMarkFailedById db sid msg).images = db.images := by
  unfold studiesMarkFailedById; split <;> rfl

theorem finalizeRun_images (tid : String) (sid : Nat) (study : ImagingStudy)
    (c : List CreatedInfo) (s : List SkippedInfo) (e : List String)
    (total : Nat) (db : DB) :
    (finalizeRun tid sid study c s e total db).images = db.images := by
  unfold finalizeRun; split <;> rfl

theorem taskStatusSetFailedMsg_images (db : DB) (tid msg : String) :
    (taskStatusSetFailedMsg db tid msg).images = db.images := rfl

theorem markInProgressAndAudit_images (tid : String) (sid : Nat)
    (cid : String) (uid : Option Nat) (st : ImagingStudy) (n : Nat) (db : DB) :
    (markInProgressAndAudit tid sid cid uid st n db).2.images = db.images := rfl

theorem processBody_fault (tid : String) (sid : Nat) (l : List FileData)
    (uid : Option Nat) (cid : String) (m : String) (db : DB) :
    processBody tid sid l uid cid (.atStart m) db =
      (.raised m, studiesMarkFailedById db sid (m.take 500)) := rfl

theorem processBodyRun_notFound (tid : String) (sid : Nat) (l : List FileData)
    (uid : Option Nat) (cid : String) (lf : Option String) (db : DB)
    (hf : findStudy db sid = none) :
    processBodyRun tid sid l uid cid lf db =
      (.studyNotFound,
       auditAppend
         (taskStatusSetFailedMsg (taskStatusUpsert db tid sid uid l.length) tid
           ("Study with ID " ++ toString sid ++ " not found"))
         { actor_type := "system", action := "failed",
           resource_type := "ImagingStudy", resource_id := sid,
           tenant_id := none,
           details := [("task_id", tid), ("error", "Study not found")] }) := by
  have hf2 : findStudy (taskStatusUpsert db tid sid uid l.length) sid = none := by
    rw [findStudy_upsert]; exact hf
  simp [processBodyRun, hf2]

theorem processBody_notFound (tid : String) (sid : Nat) (l : List FileData)
    (uid : Option Nat) (cid : String) (db : DB)
    (hf : findStudy db sid = none) :
    processBody tid sid l uid cid .noFault db =
      (.studyNotFound,
       auditAppend
         (taskStatusSetFailedMsg (taskStatusUpsert db tid sid uid l.length) tid
           ("Study with ID " ++ toString sid ++ " not found"))
         { actor_type := "system", action := "failed",
           resource_type := "ImagingStudy", resource_id := sid,
           tenant_id := none,
           details := [("task_id", tid), ("error", "Study not found")] }) :=
  processBodyRun_notFound tid sid l uid cid none db hf

theorem processBody_uidUnique (tid : String) (sid : Nat) (l : List FileData)
    (uid : Option Nat) (cid : String) (fault : Fault) (db : DB)
    (hu : UidUnique db.images) :
    UidUnique ((processBody tid sid l uid cid fault db).2).images := by
  cases fault with
  | atStart m =>
    rw [processBody_fault]
    show UidUnique ((studiesMarkFailedById db sid (m.take 500)).images)
    rw [studiesMarkFailedById_images]; exact hu
  | noFault =>
    cases hf : findStudy db sid with
    | none =>
      rw [processBody_notFound tid sid l uid cid db hf]
      show UidUnique ((auditAppend _ _).images)
      rw [auditAppend_images, taskStatusSetFailedMsg_images, taskStatusUpsert_images]
      exact hu
    | some st =>
      by_cases hst : st.status = "completed"
      · rw [processBody_already_completed tid sid l uid cid db st hf hst]
        show UidUnique ((taskStatusUpsert db tid sid uid l.length).images)
        rw [taskStatusUpsert_images]; exact hu
      · rw [processBody_guard_passes tid sid l uid cid db st hf hst]
        show UidUnique ((finalizeRun tid sid _ _ _ _ l.length _).images)
        rw [finalizeRun_images]
        apply processItems_uidUnique
        rw [markInProgressAndAudit_images, taskStatusUpsert_images]
        exact hu
  | atFinalize m =>
    cases hf : findStudy db sid with
    | none =>
      show UidUnique ((processBodyRun tid sid l uid cid (some m) db).2).images
      rw [processBodyRun_notFound tid sid l uid cid (some m) db hf]
      show UidUnique ((auditAppend _ _).images)
      rw [auditAppend_images, taskStatusSetFailedMsg_images, taskStatusUpsert_images]
      exact hu
    | some st =>
      by_cases hst : st.status = "completed"
      · show UidUnique ((processBodyRun tid sid l uid cid (some m) db).2).images
        rw [processBodyRun_already_completed tid sid l uid cid (some m) db st hf hst]
        show UidUnique ((taskStatusUpsert db tid sid uid l.length).images)
        rw [taskStatusUpsert_images]; exact hu
      · show UidUnique ((processBodyRun tid sid l uid cid (some m) db).2).images
        rw [processBodyRun_guard_passes_late tid sid l uid cid m db st hf hst]
        show UidUnique ((taskStatusSetFailedMsg _ tid m).images)
        rw [taskStatusSetFailedMsg_images, studiesMarkFailedById_images,
            saveStudy_images]
        apply processItems_uidUnique
        rw [markInProgressAndAudit_images, taskStatusUpsert_images]
        exact hu

/-- C2 (amended): a recognized-format item whose extracted SOP instance
UID is non-empty and already carried by a stored item is skipped with
reason `Duplicate SOP Instance UID` and that UID, storing nothing; and
the dedup invariant — no two stored items share a (non-null)
content-unique identifier — is preserved by every delivery of the job.
(The empty-string UID bypasses the pre-check, so the skip behaviour is
guaranteed only for non-empty identifiers; the store's unique constraint
still prevents a second empty-UID item from being stored, which is why
the invariant itself holds unconditionally.) -/
theorem dedup_skip_and_invariant :
    (∀ (study : ImagingStudy) (fd : FileData) (db : DB) (u : String)
       (m : DicomMeta) (cv : Bool),
      fd.behavior = .dicom u m cv → u ≠ "" →
      db.images.any (fun im => im.sop_instance_uid == some u) = true →
      processOneItem study fd db =
        (.skippedDup { filename := fd.filename,
                       reason := "Duplicate SOP Instance UID",
                       sop_instance_uid := u }, db)) ∧
    (∀ (tid : String) (sid : Nat) (l : List FileData) (uid : Option Nat)
       (cid : String) (fault : Fault) (w : World),
      UidUnique w.db.images →
      UidUnique ((process_dicom_images_async tid sid l uid cid fault w).2).db.images) := by
  constructor
  · intro study fd db u m cv hb hne hany
    have hcond : (u != "" && db.images.any fun im => im.sop_instance_uid == some u) = true := by
      simp [hany, hne]
    simp [processOneItem, hb, hcond]
  · intro tid sid l uid cid fault w hu
    cases hc : cacheGet w.cache (lockKeyOf sid) with
    | some holder =>
      rw [run_lock_held tid sid l uid cid fault w holder hc]
      exact hu
    | none =>
      rw [run_lock_free tid sid l uid cid fault w hc]
      exact processBody_uidUnique tid sid l uid cid fault w.db hu

/-- Witness for `dedup_skip_and_invariant`: a duplicate non-empty UID is
skipped, and the invariant is preserved across a concrete run. -/
theorem dedup_skip_and_invariant_witness :
    ((fdDicom "x.dcm" 1 "X").behavior = .dicom "X" metaW true ∧
     "X" ≠ "" ∧
     dbWithX.images.any (fun im => im.sop_instance_uid == some "X") = true ∧
     UidUnique wFree.db.images) ∧
    processOneItem stW (fdDicom "x.dcm" 1 "X") dbWithX =
      (.skippedDup { filename := "x.dcm", reason := "Duplicate SOP Instance UID",
                     sop_instance_uid := "X" }, dbWithX) ∧
    UidUnique ((process_dicom_images_async "t1" 5 [fdDicom "x.dcm" 1 "X"]
      none "c" .noFault wFree).2).db.images :=
  ⟨⟨rfl, by decide, by decide, List.Pairwise.nil⟩,
   (dedup_skip_and_invariant).1 stW (fdDicom "x.dcm" 1 "X") dbWithX "X" metaW true
     rfl (by decide) (by decide),
   (dedup_skip_and_invariant).2 "t1" 5 [fdDicom "x.dcm" 1 "X"] none "c" .noFault wFree
     List.Pairwise.nil⟩

/-- C2 counterexample: an item whose extracted SOP instance UID is the
empty string, delivered while a stored item already carries the empty
UID, is NOT reported as `skipped(Duplicate SOP Instance UID)`: the
pre-check is bypassed and the insert fails on the unique constraint, so
the item yields an error result (and stores nothing). -/
theorem dedup_claim_counterexample :
    dbWithEmptyUid.images.any (fun im => im.sop_instance_uid == some "") = true ∧
    processOneItem stW (fdDicom "y.dcm" 1 "") dbWithEmptyUid =
      (.errored (itemErrorMsg "y.dcm" uidConstraintMsg), dbWithEmptyUid) :=
  ⟨by decide, by decide⟩

/-- C10 (amended): for a recognized-format item whose extracted SOP
instance UID is the empty string, the duplicate pre-check is bypassed and
the item is never reported as a duplicate skip; it is persisted with the
empty identifier recorded provided no stored item already carries the
empty identifier and its sequence number is free in the study — when a
stored item already carries the empty identifier, the store's unique
constraint rejects the insert and the item yields an error instead of
being persisted. -/
theorem empty_uid_bypasses_precheck :
    (∀ (study : ImagingStudy) (fd : FileData) (db : DB) (m : DicomMeta)
       (cv : Bool) (info : SkippedInfo),
      fd.behavior = .dicom "" m cv →
      (processOneItem study fd db).1 ≠ .skippedDup info) ∧
    (∀ (study : ImagingStudy) (fd : FileData) (db : DB) (m : DicomMeta)
       (cv : Bool),
      fd.behavior = .dicom "" m cv →
      db.images.any (fun im => im.sop_instance_uid == some "") = false →
      db.images.any (fun im =>
        im.study_id == study.id && im.instance_number == fd.instance_number) = false →
      processOneItem study fd db =
        (.created { id := db.nextImageId, filename := fd.filename,
                    instance_number := fd.instance_number },
         { db with
           images := db.images ++
             [{ id := db.nextImageId, study_id := study.id,
                instance_number := fd.instance_number, is_dicom := true,
                sop_instance_uid := some "", meta := some m,
                filename := if cv then fd.filename ++ ".jpg" else fd.filename,
                from_conversion := cv }]
           nextImageId := db.nextImageId + 1 })) := by
  constructor
  · intro study fd db m cv info hb
    simp only [processOneItem, hb]
    split
    · rename_i hcond; simp at hcond
    · split
      · exact createAsOutcome_ne_skipped _ _ _ _ _ info
      · exact createAsOutcome_ne_skipped _ _ _ _ _ info
  · intro study fd db m cv hb h1 h2
    simp only [processOneItem, hb]
    split
    · rename_i hcond; simp at hcond
    · cases cv with
      | true => simp [createAsOutcome, dicomImageCreate, h1, h2]
      | false => simp [createAsOutcome, dicomImageCreate, h1, h2]

/-- Witness for `empty_uid_bypasses_precheck`: over an empty store, an
empty-UID item is stored with the empty identifier recorded and is not
reported as a duplicate. -/
theorem empty_uid_bypasses_precheck_witness :
    ((fdDicom "y.dcm" 1 "").behavior = .dicom "" metaW true ∧
     dbW.images.any (fun im => im.sop_instance_uid == some "") = false ∧
     dbW.images.any (fun im =>
       im.study_id == stW.id && im.instance_number == 1) = false) ∧
    (processOneItem stW (fdDicom "y.dcm" 1 "") dbW).1 ≠
      .skippedDup { filename := "y.dcm", reason := "Duplicate SOP Instance UID",
                    sop_instance_uid := "" } ∧
    processOneItem stW (fdDicom "y.dcm" 1 "") dbW =
      (.created { id := 1, filename := "y.dcm", instance_number := 1 },
       { dbW with
         images := dbW.images ++
           [{ id := 1, study_id := 5, instance_number := 1, is_dicom := true,
              sop_instance_uid := some "", meta := some metaW,
              filename := "y.dcm" ++ ".jpg", from_conversion := true }]
         nextImageId := 2 }) :=
  ⟨⟨rfl, by decide, by decide⟩,
   (empty_uid_bypasses_precheck).1 stW (fdDicom "y.dcm" 1 "") dbW metaW true _ rfl,
   (empty_uid_bypasses_precheck).2 stW (fdDicom "y.dcm" 1 "") dbW metaW true
     rfl (by decide) (by decide)⟩

/-- C10 counterexample: when a stored item already carries the empty
identifier, an empty-UID item is NOT persisted (contradicting
"persisted ... regardless of what is already stored"): the unique
constraint rejects it and the item errors, leaving the store unchanged. -/
theorem empty_uid_persist_counterexample :
    dbWithEmptyUid.images.any (fun im => im.sop_instance_uid == some "") = true ∧
    processOneItem stW (fdDicom "z.dcm" 2 "") dbWithEmptyUid =
      (.errored (itemErrorMsg "z.dcm" uidConstraintMsg), dbWithEmptyUid) :=
  ⟨by decide, by decide⟩

theorem taskStatusSetProcessed_images (db : DB) (tid : String) (idx : Nat) :
    (taskStatusSetProcessed db tid idx).images = db.images := rfl

theorem taskStatusIncFailed_images (db : DB) (tid : String) :
    (taskStatusIncFailed db tid).images = db.images := rfl

theorem itemErrorMsg_ne_empty (f m : String) : itemErrorMsg f m ≠ "" := by
  intro h
  have h2 := congrArg String.length h
  simp [itemErrorMsg, String.length_append] at h2
  exact absurd h2.1.2 (by decide)

theorem processOneItem_generic_creates (study : ImagingStudy) (fd : FileData)
    (db : DB) (hb : fd.behavior = .notDicom)
    (hfree : db.images.any (fun im =>
      im.study_id == study.id && im.instance_number == fd.instance_number) = false) :
    processOneItem study fd db =
      (.created { id := db.nextImageId, filename := fd.filename,
                  instance_number := fd.instance_number },
       { db with
         images := db.images ++
           [{ id := db.nextImageId, study_id := study.id,
              instance_number := fd.instance_number, is_dicom := false,
              sop_instance_uid := none, meta := none, filename := fd.filename,
              from_conversion := false }]
         nextImageId := db.nextImageId + 1 }) := by
  simp [processOneItem, hb, createAsOutcome, dicomImageCreate, hfree]

theorem processOneItem_raises (study : ImagingStudy) (fd : FileData)
    (db : DB) (m : String) (hb : fd.behavior = .raisesMsg m) :
    processOneItem study fd db = (.errored (itemErrorMsg fd.filename m), db) := by
  simp [processOneItem, hb]

theorem processItems_all_generic (tid : String) (study : ImagingStudy)
    (xs : List FileData) :
    ∀ (idx : Nat) (db : DB) (cs : List CreatedInfo) (ss : List SkippedInfo)
      (es : List String),
    (∀ fd ∈ xs, fd.behavior = .notDicom) →
    (List.map (fun fd => fd.instance_number) xs).Nodup →
    (∀ fd ∈ xs, ∀ im ∈ db.images, im.study_id = study.id →
       im.instance_number ≠ fd.instance_number) →
    ∃ (cs' : List CreatedInfo) (db' : DB),
      processItems tid study xs idx db cs ss es = (db', cs ++ cs', ss, es) ∧
      cs'.length = xs.length ∧
      db'.studies = db.studies ∧
      db'.auditLogs = db.auditLogs ∧
      db'.statusWrites = db.statusWrites ∧
      (∀ im ∈ db'.images, im ∈ db.images ∨
        (im.study_id = study.id ∧
          im.instance_number ∈ List.map (fun fd => fd.instance_number) xs)) := by
  induction xs with
  | nil =>
    intro idx db cs ss es _ _ _
    exact ⟨[], db, by simp [processItems], rfl, rfl, rfl, rfl,
      fun im him => .inl him⟩
  | cons g rest ih =>
    intro idx db cs ss es hgen hnodup hfresh
    have hg : g.behavior = .notDicom := hgen g (List.mem_cons_self g rest)
    have hfree : (taskStatusSetProcessed db tid idx).images.any (fun im =>
        im.study_id == study.id && im.instance_number == g.instance_number) = false := by
      rw [taskStatusSetProcessed_images, List.any_eq_false]
      intro im him hpred
      simp only [Bool.and_eq_true, beq_iff_eq] at hpred
      exact hfresh g (List.mem_cons_self g rest) im him hpred.1 hpred.2
    have hstep := processOneItem_generic_creates study g
      (taskStatusSetProcessed db tid idx) hg hfree
    have hone : processItems tid study (g :: rest) idx db cs ss es =
        processItems tid study rest (idx + 1)
          { taskStatusSetProcessed db tid idx with
            images := (taskStatusSetProcessed db tid idx).images ++
              [{ id := (taskStatusSetProcessed db tid idx).nextImageId,
                 study_id := study.id, instance_number := g.instance_number,
                 is_dicom := false, sop_instance_uid := none, meta := none,
                 filename := g.filename, from_conversion := false }]
            nextImageId := (taskStatusSetProcessed db tid idx).nextImageId + 1 }
          (cs ++ [{ id := (taskStatusSetProcessed db tid idx).nextImageId,
                    filename := g.filename,
                    instance_number := g.instance_number }]) ss es := by
      simp only [processItems]
      rw [hstep]
    have hnodup2 : (List.map (fun fd => fd.instance_number) rest).Nodup :=
      (List.nodup_cons.mp hnodup).2
    have hnotmem : g.instance_number ∉
        List.map (fun fd => fd.instance_number) rest :=
      (List.nodup_cons.mp hnodup).1
    obtain ⟨cs'', db', hrun, hlen, hstud, haud, hsw, himg⟩ :=
      ih (idx + 1)
        { taskStatusSetProcessed db tid idx with
          images := (taskStatusSetProcessed db tid idx).images ++
            [{ id := (taskStatusSetProcessed db tid idx).nextImageId,
               study_id := study.id, instance_number := g.instance_number,
               is_dicom := false, sop_instance_uid := none, meta := none,
               filename := g.filename, from_conversion := false }]
          nextImageId := (taskStatusSetProcessed db tid idx).nextImageId + 1 }
        (cs ++ [{ id := (taskStatusSetProcessed db tid idx).nextImageId,
                  filename := g.filename,
                  instance_number := g.instance_number }]) ss es
        (fun fd hfd => hgen fd (List.mem_cons_of_mem g hfd))
        hnodup2
        (by
          intro fd hfd im him hsidEq
          rw [List.mem_append] at him
          rcases him with him | him
          · exact hfresh fd (List.mem_cons_of_mem g hfd) im him hsidEq
          · rw [List.mem_singleton] at him
            subst him
            intro hcontra
            have hgf : g.instance_number = fd.instance_number := hcontra
            exact hnotmem (by
              rw [hgf]
              exact List.mem_map_of_mem (fun fd => fd.instance_number) hfd))
    refine ⟨{ id := (taskStatusSetProcessed db tid idx).nextImageId,
              filename := g.filename,
              instance_number := g.instance_number } :: cs'', db', ?_, ?_, ?_, ?_, ?_, ?_⟩
    · rw [hone, hrun, List.append_assoc]
      rfl
    · simp [hlen]
    · exact hstud
    · exact haud
    · exact hsw
    · intro im him
      rcases himg im him with him2 | him2
      · rw [List.mem_append] at him2
        rcases him2 with him2 | him2
        · exact .inl him2
        · rw [List.mem_singleton] at him2
          subst him2
          exact .inr ⟨rfl, by simp⟩
      · exact .inr ⟨him2.1, by
          rw [List.map_cons, List.mem_cons]
          exact .inr him2.2⟩

theorem processItems_one_error (tid : String) (study : ImagingStudy)
    (bad : FileData) (m : String) (post : List FileData)
    (hbad : bad.behavior = .raisesMsg m) :
    ∀ (pre : List FileData) (idx : Nat) (db : DB) (cs : List CreatedInfo)
      (ss : List SkippedInfo) (es : List String),
    (∀ fd ∈ pre ++ post, fd.behavior = .notDicom) →
    (List.map (fun fd => fd.instance_number) (pre ++ post)).Nodup →
    (∀ fd ∈ pre ++ post, ∀ im ∈ db.images, im.study_id = study.id →
       im.instance_number ≠ fd.instance_number) →
    ∃ (cs' : List CreatedInfo) (db' : DB),
      processItems tid study (pre ++ bad :: post) idx db cs ss es =
        (db', cs ++ cs', ss, es ++ [itemErrorMsg bad.filename m]) ∧
      cs'.length = pre.length + post.length ∧
      db'.studies = db.studies ∧
      db'.auditLogs = db.auditLogs ∧
      db'.statusWrites = db.statusWrites := by
  intro pre
  induction pre with
  | nil =>
    intro idx db cs ss es hgen hnodup hfresh
    have hone : processItems tid study ([] ++ bad :: post) idx db cs ss es =
        processItems tid study post (idx + 1)
          (taskStatusIncFailed (taskStatusSetProcessed db tid idx) tid) cs ss
          (es ++ [itemErrorMsg bad.filename m]) := by
      simp only [List.nil_append, processItems]
      rw [processOneItem_raises study bad (taskStatusSetProcessed db tid idx) m hbad]
    obtain ⟨cs', db', hrun, hlen, hstud, haud, hsw, _⟩ :=
      processItems_all_generic tid study post (idx + 1)
        (taskStatusIncFailed (taskStatusSetProcessed db tid idx) tid) cs ss
        (es ++ [itemErrorMsg bad.filename m])
        (fun fd hfd => hgen fd hfd)
        hnodup
        (fun fd hfd im him hs => hfresh fd hfd im him hs)
    exact ⟨cs', db', by rw [hone, hrun], by simpa using hlen, hstud, haud, hsw⟩
  | cons g pre' ih =>
    intro idx db cs ss es hgen hnodup hfresh
    have hg : g.behavior = .notDicom := hgen g (List.mem_cons_self g _)
    have hfree : (taskStatusSetProcessed db tid idx).images.any (fun im =>
        im.study_id == study.id && im.instance_number == g.instance_number) = false := by
      rw [taskStatusSetProcessed_images, List.any_eq_false]
      intro im him hpred
      simp only [Bool.and_eq_true, beq_iff_eq] at hpred
      exact hfresh g (List.mem_cons_self g _) im him hpred.1 hpred.2
    have hstep := processOneItem_generic_creates study g
      (taskStatusSetProcessed db tid idx) hg hfree
    have hone : processItems tid study ((g :: pre') ++ bad :: post) idx db cs ss es =
        processItems tid study (pre' ++ bad :: post) (idx + 1)
          { taskStatusSetProcessed db tid idx with
            images := (taskStatusSetProcessed db tid idx).images ++
              [{ id := (taskStatusSetProcessed db tid idx).nextImageId,
                 study_id := study.id, instance_number := g.instance_number,
                 is_dicom := false, sop_instance_uid := none, meta := none,
                 filename := g.filename, from_conversion := false }]
            nextImageId := (taskStatusSetProcessed db tid idx).nextImageId + 1 }
          (cs ++ [{ id := (taskStatusSetProcessed db tid idx).nextImageId,
                    filename := g.filename,
                    instance_number := g.instance_number }]) ss es := by
      simp only [List.cons_append, processItems]
      rw [hstep]
      rfl
    have hnodup2 : (List.map (fun fd => fd.instance_number) (pre' ++ post)).Nodup :=
      (List.nodup_cons.mp (by simpa using hnodup)).2
    have hnotmem : g.instance_number ∉
        List.map (fun fd => fd.instance_number) (pre' ++ post) :=
      (List.nodup_cons.mp (by simpa using hnodup)).1
    obtain ⟨cs'', db', hrun, hlen, hstud, haud, hsw⟩ :=
      ih (idx + 1)
        { taskStatusSetProcessed db tid idx with
          images := (taskStatusSetProcessed db tid idx).images ++
            [{ id := (taskStatusSetProcessed db tid idx).nextImageId,
               study_id := study.id, instance_number := g.instance_number,
               is_dicom := false, sop_instance_uid := none, meta := none,
               filename := g.filename, from_conversion := false }]
          nextImageId := (taskStatusSetProcessed db tid idx).nextImageId + 1 }
        (cs ++ [{ id := (taskStatusSetProcessed db tid idx).nextImageId,
                  filename := g.filename,
                  instance_number := g.instance_number }]) ss es
        (fun fd hfd => hgen fd (List.mem_cons_of_mem g hfd))
        hnodup2
        (by
          intro fd hfd im him hsidEq
          rw [List.mem_append] at him
          rcases him with him | him
          · exact hfresh fd (List.mem_cons_of_mem g hfd) im him hsidEq
          · rw [List.mem_singleton] at him
            subst him
            intro hcontra
            have hgf : g.instance_number = fd.instance_number := hcontra
            exact hnotmem (by
              rw [hgf]
              exact List.mem_map_of_mem (fun fd => fd.instance_number) hfd))
    refine ⟨{ id := (taskStatusSetProcessed db tid idx).nextImageId,
              filename := g.filename,
              instance_number := g.instance_number } :: cs'', db', ?_, ?_, ?_, ?_, ?_⟩
    · rw [hone, hrun, List.append_assoc]
      rfl
    · simp only [List.length_cons, hlen, List.length_append]
      omega
    · exact hstud
    · exact haud
    · exact hsw

theorem findStudy_taskStatusUpdate (db : DB) (tid : String)
    (f : TaskStatus → TaskStatus) (sid : Nat) :
    findStudy (taskStatusUpdate db tid f) sid = findStudy db sid := rfl

theorem finalizeRun_findStudy_failed (tid : String) (sid : Nat)
    (study : ImagingStudy) (c : List CreatedInfo) (s : List SkippedInfo)
    (e : List String) (he : e ≠ []) (total : Nat) (db : DB)
    (hfind0 : findStudy db sid = some study) :
    findStudy (finalizeRun tid sid study c s e total db) sid =
      some { study with
             status := "failed"
             error_message := String.intercalate "\n" (e.take 3) } := by
  have hempty : e.isEmpty = false := by
    cases e with
    | nil => exact absurd rfl he
    | cons a t => rfl
  unfold finalizeRun
  rw [hempty]
  simp only [Bool.false_eq_true, if_false]
  rw [findStudy_taskStatusUpdate, findStudy_auditAppend,
      finalStudyRow_of_errors study e hempty]
  exact findStudy_save_of_found db sid study _ hfind0 rfl

/-- C3: in a batch of `pre ++ [bad] ++ post` where only `bad` raises (an
exception with text `m`) and the other items are generic files with
fresh, pairwise-distinct sequence numbers, the job still processes the
other items — returning normally (not raising) with `|pre| + |post|`
created results, no skips, and exactly the one error message — and the
study row ends with status `failed` and the non-empty error message
consisting of the first (up to 3) error messages. -/
theorem one_item_failure_batch_continues (tid : String) (sid : Nat)
    (uid : Option Nat) (cid : String) (w : World) (st : ImagingStudy)
    (pre post : List FileData) (bad : FileData) (m : String)
    (hlock : cacheGet w.cache (lockKeyOf sid) = none)
    (hfind : findStudy w.db sid = some st)
    (hst : st.status ≠ "completed")
    (hbad : bad.behavior = .raisesMsg m)
    (hgen : ∀ fd ∈ pre ++ post, fd.behavior = .notDicom)
    (hnodup : (List.map (fun fd => fd.instance_number) (pre ++ post)).Nodup)
    (hfresh : ∀ fd ∈ pre ++ post, ∀ im ∈ w.db.images,
       im.study_id = st.id → im.instance_number ≠ fd.instance_number) :
    ∃ cs' : List CreatedInfo,
      (process_dicom_images_async tid sid (pre ++ bad :: post) uid cid .noFault w).1 =
        .finished cs' [] [itemErrorMsg bad.filename m] tid ∧
      cs'.length = pre.length + post.length ∧
      findStudy
        (process_dicom_images_async tid sid (pre ++ bad :: post) uid cid .noFault w).2.db
        sid =
        some { st with
               status := "failed"
               error_message := itemErrorMsg bad.filename m } ∧
      itemErrorMsg bad.filename m ≠ "" := by
  have hmdfst : (markInProgressAndAudit tid sid cid uid st (pre ++ bad :: post).length
      (taskStatusUpsert w.db tid sid uid (pre ++ bad :: post).length)).1 =
      { st with status := "in_progress", error_message := "" } := rfl
  obtain ⟨cs', db', hrun, hlen, hstud, haud, hsw⟩ :=
    processItems_one_error tid { st with status := "in_progress", error_message := "" }
      bad m post hbad pre 0
      (markInProgressAndAudit tid sid cid uid st (pre ++ bad :: post).length
        (taskStatusUpsert w.db tid sid uid (pre ++ bad :: post).length)).2
      [] [] []
      hgen hnodup
      (by
        intro fd hfd im him hs
        rw [markInProgressAndAudit_images, taskStatusUpsert_images] at him
        exact hfresh fd hfd im him hs)
  simp only [List.nil_append] at hrun
  have hup : findStudy (taskStatusUpsert w.db tid sid uid
      (pre ++ bad :: post).length) sid = some st := by
    rw [findStudy_upsert]; exact hfind
  have hfindd3 : findStudy
      (markInProgressAndAudit tid sid cid uid st (pre ++ bad :: post).length
        (taskStatusUpsert w.db tid sid uid (pre ++ bad :: post).length)).2 sid =
      some { st with status := "in_progress", error_message := "" } :=
    findStudy_save_of_found _ sid st _ hup rfl
  have hfindDb' : findStudy db' sid =
      some { st with status := "in_progress", error_message := "" } := by
    unfold findStudy
    rw [hstud]
    exact hfindd3
  refine ⟨cs', ?_, hlen, ?_, itemErrorMsg_ne_empty bad.filename m⟩
  · rw [run_lock_free tid sid (pre ++ bad :: post) uid cid .noFault w hlock,
        processBody_guard_passes tid sid (pre ++ bad :: post) uid cid w.db st hfind hst]
    simp only [hmdfst]
    rw [hrun]
  · rw [run_lock_free tid sid (pre ++ bad :: post) uid cid .noFault w hlock,
        processBody_guard_passes tid sid (pre ++ bad :: post) uid cid w.db st hfind hst]
    simp only [hmdfst]
    rw [hrun]
    exact finalizeRun_findStudy_failed tid sid
      { st with status := "in_progress", error_message := "" } cs' []
      [itemErrorMsg bad.filename m] (by simp) (pre ++ bad :: post).length db' hfindDb'

/-- Witness for `one_item_failure_batch_continues`: a 3-item batch whose
middle item raises yields 2 created, 0 skipped, 1 error, and a failed
study with the error recorded. -/
theorem one_item_failure_batch_continues_witness :
    (cacheGet wFree.cache (lockKeyOf 5) = none ∧
     findStudy wFree.db 5 = some stW ∧
     stW.status ≠ "completed" ∧
     fdBad.behavior = .raisesMsg "boom" ∧
     (∀ fd ∈ [fdGen 1 "a"] ++ [fdGen 3 "c"], fd.behavior = .notDicom) ∧
     (List.map (fun fd => fd.instance_number)
       ([fdGen 1 "a"] ++ [fdGen 3 "c"])).Nodup ∧
     (∀ fd ∈ [fdGen 1 "a"] ++ [fdGen 3 "c"], ∀ im ∈ wFree.db.images,
        im.study_id = stW.id → im.instance_number ≠ fd.instance_number)) ∧
    (∃ cs' : List CreatedInfo,
      (process_dicom_images_async "t1" 5 ([fdGen 1 "a"] ++ fdBad :: [fdGen 3 "c"])
        none "c" .noFault wFree).1 =
        .finished cs' [] [itemErrorMsg fdBad.filename "boom"] "t1" ∧
      cs'.length = [fdGen 1 "a"].length + [fdGen 3 "c"].length ∧
      findStudy
        (process_dicom_images_async "t1" 5 ([fdGen 1 "a"] ++ fdBad :: [fdGen 3 "c"])
          none "c" .noFault wFree).2.db 5 =
        some { stW with
               status := "failed"
               error_message := itemErrorMsg fdBad.filename "boom" } ∧
      itemErrorMsg fdBad.filename "boom" ≠ "") :=
  ⟨⟨by decide, by decide, by decide, rfl, by decide, by decide, by decide⟩,
   one_item_failure_batch_continues "t1" 5 none "c" wFree stW
     [fdGen 1 "a"] [fdGen 3 "c"] fdBad "boom"
     (by decide) (by decide) (by decide) rfl (by decide) (by decide) (by decide)⟩

theorem saveStudyRetention_mem_of_ne (db : DB) (aid : Nat) (r : Option Int)
    (s : ImagingStudy) (hs : s ∈ db.studies) (hne : aid ≠ s.id) :
    s ∈ (saveStudyRetention db aid r).studies := by
  show s ∈ db.studies.map (fun t =>
    if t.id == aid then { t with retention_until := r } else t)
  have hf : (if s.id == aid then { s with retention_until := r } else s) = s := by
    rw [if_neg]
    simp only [beq_iff_eq]
    exact fun h => hne h.symm
  rw [← hf]
  exact List.mem_map_of_mem _ hs

theorem saveStudyRetention_mem_self (db : DB) (s : ImagingStudy)
    (r : Option Int) (hs : s ∈ db.studies) :
    { s with retention_until := r } ∈ (saveStudyRetention db s.id r).studies := by
  show { s with retention_until := r } ∈ db.studies.map (fun t =>
    if t.id == s.id then { t with retention_until := r } else t)
  have hf : (if s.id == s.id then { s with retention_until := r } else s) =
      { s with retention_until := r } := by
    rw [if_pos]
    simp
  rw [← hf]
  exact List.mem_map_of_mem _ hs

theorem backfillLoop_mem_of_ne (L : List ImagingStudy) :
    ∀ (db : DB) (n : Nat) (s : ImagingStudy), s ∈ db.studies →
    (∀ x ∈ L, x.id ≠ s.id) →
    s ∈ (backfillLoop L db n).1.studies := by
  induction L with
  | nil => intro db n s hs _; exact hs
  | cons a rest ih =>
    intro db n s hs hne
    have hane : a.id ≠ s.id := hne a (List.mem_cons_self a rest)
    simp only [backfillLoop]
    exact ih _ (n + 1) s
      (saveStudyRetention_mem_of_ne db a.id _ s hs hane)
      (fun x hx => hne x (List.mem_cons_of_mem a hx))

theorem backfillLoop_mem_updated (L : List ImagingStudy) :
    ∀ (db : DB) (n : Nat),
    (∀ x ∈ L, x ∈ db.studies) →
    (L.map (fun s => s.id)).Nodup →
    ∀ s ∈ L,
    { s with retention_until := some (s.study_date + 365 * RETENTION_YEARS) } ∈
      (backfillLoop L db n).1.studies := by
  induction L with
  | nil => intro db n _ _ s hs; exact absurd hs (List.not_mem_nil s)
  | cons a rest ih =>
    intro db n hmem hnodup s hs
    have hnotmem : a.id ∉ rest.map (fun s => s.id) :=
      (List.nodup_cons.mp hnodup).1
    rcases List.mem_cons.mp hs with rfl | hs2
    · -- s is the head: the save rewrites its row, later ids differ
      simp only [backfillLoop]
      refine backfillLoop_mem_of_ne rest _ (n + 1) _ ?_ ?_
      · exact saveStudyRetention_mem_self db s _ (hmem s (List.mem_cons_self s rest))
      · intro x hx hxe
        have hxe2 : x.id = s.id := hxe
        exact hnotmem (hxe2 ▸ List.mem_map_of_mem (fun s => s.id) hx)
    · -- s is further on: the head's save leaves it unchanged
      simp only [backfillLoop]
      refine ih _ (n + 1) ?_ (List.nodup_cons.mp hnodup).2 s hs2
      intro x hx
      have hxne : a.id ≠ x.id := by
        intro hae
        exact hnotmem (hae ▸ List.mem_map_of_mem (fun s => s.id) hx)
      exact saveStudyRetention_mem_of_ne db a.id _ x
        (hmem x (List.mem_cons_of_mem a hx)) hxne

theorem backfillLoop_count (L : List ImagingStudy) :
    ∀ (db : DB) (n : Nat), (backfillLoop L db n).2 = n + L.length := by
  induction L with
  | nil => intro db n; simp [backfillLoop]
  | cons a rest ih =>
    intro db n
    show (backfillLoop rest _ (n + 1)).2 = n + (rest.length + 1)
    rw [ih]
    omega

theorem backfillLoop_length (L : List ImagingStudy) :
    ∀ (db : DB) (n : Nat),
    (backfillLoop L db n).1.studies.length = db.studies.length := by
  induction L with
  | nil => intro db n; rfl
  | cons a rest ih =>
    intro db n
    show (backfillLoop rest _ (n + 1)).1.studies.length = _
    rw [ih]
    exact List.length_map _ _

/-- C8: the backfill job sets, for every study with no retention
deadline, `retention_until = study_date + 365 × 6` days (the fixed
6-year retention period as the code computes it), leaves every study
that already has a deadline untouched, deletes or creates nothing, and
reports the number of studies updated. -/
theorem retention_backfill (db : DB)
    (hids : (db.studies.map (fun s => s.id)).Nodup) :
    (∀ s ∈ db.studies, s.retention_until ≠ none →
       s ∈ (calculate_retention_dates db).2.studies) ∧
    (∀ s ∈ db.studies, s.retention_until = none →
       { s with retention_until := some (s.study_date + 365 * RETENTION_YEARS) } ∈
         (calculate_retention_dates db).2.studies) ∧
    (calculate_retention_dates db).2.studies.length = db.studies.length ∧
    (calculate_retention_dates db).1.1 =
      (db.studies.filter (fun s => s.retention_until == none)).length ∧
    (calculate_retention_dates db).1.2 = RETENTION_YEARS := by
  have hfilterid : ((db.studies.filter
      (fun s => s.retention_until == none)).map (fun s => s.id)).Nodup := by
    refine List.Nodup.sublist ?_ hids
    exact (List.filter_sublist db.studies).map (fun s => s.id)
  refine ⟨?_, ?_, ?_, ?_, ?_⟩
  · intro s hs hsome
    refine backfillLoop_mem_of_ne _ db 0 s hs ?_
    intro x hx hxe
    have hxdb := List.mem_of_mem_filter hx
    have hxnone : x.retention_until = none := by
      have := List.of_mem_filter hx
      simpa using this
    have hxs : x = s := List.inj_on_of_nodup_map hids hxdb hs hxe
    exact hsome (hxs ▸ hxnone)
  · intro s hs hnone
    refine backfillLoop_mem_updated _ db 0
      (fun x hx => List.mem_of_mem_filter hx) hfilterid s ?_
    refine List.mem_filter.mpr ⟨hs, ?_⟩
    simp [hnone]
  · exact backfillLoop_length _ db 0
  · show (backfillLoop _ db 0).2 = _
    rw [backfillLoop_count]
    omega
  · rfl

/-- Witness for `retention_backfill`: the study with no deadline gets
`study_date + 2190`; a dated study is untouched. -/
theorem retention_backfill_witness :
    ((dbW.studies.map (fun s => s.id)).Nodup ∧
     stW ∈ dbW.studies ∧ stW.retention_until = none) ∧
    { stW with retention_until := some (stW.study_date + 365 * RETENTION_YEARS) } ∈
      (calculate_retention_dates dbW).2.studies :=
  ⟨⟨by decide, by decide, rfl⟩,
   (retention_backfill dbW (by decide)).2.1 stW (by decide) rfl⟩

theorem deleteStudyCascade_auditLogs (db : DB) (sid : Nat) :
    (deleteStudyCascade db sid).auditLogs = db.auditLogs := rfl

theorem purgeLoop_errors_mono (oracle : Nat → PurgeFail) (L : List ImagingStudy) :
    ∀ (acc : PurgeSummary) (db : DB) (e : String), e ∈ acc.errors →
    e ∈ (purgeLoop oracle L acc db).1.errors := by
  induction L with
  | nil => intro acc db e he; exact he
  | cons a rest ih =>
    intro acc db e he
    simp only [purgeLoop]
    cases horacle : oracle a.id with
    | noFail => exact ih _ _ e he
    | failEarly m => exact ih _ _ e (List.mem_append_left _ he)
    | failAtDelete m => exact ih _ _ e (List.mem_append_left _ he)

theorem purgeLoop_audit_mono (oracle : Nat → PurgeFail) (L : List ImagingStudy) :
    ∀ (acc : PurgeSummary) (db : DB) (a : AuditLog), a ∈ db.auditLogs →
    a ∈ (purgeLoop oracle L acc db).2.auditLogs := by
  induction L with
  | nil => intro acc db a ha; exact ha
  | cons x rest ih =>
    intro acc db a ha
    simp only [purgeLoop]
    cases horacle : oracle x.id with
    | noFail =>
      refine ih _ _ a ?_
      rw [deleteStudyCascade_auditLogs]
      exact List.mem_append_left _ ha
    | failEarly m => exact ih _ _ a ha
    | failAtDelete m => exact ih _ _ a (List.mem_append_left _ ha)

theorem purgeLoop_studies_subset (oracle : Nat → PurgeFail)
    (L : List ImagingStudy) :
    ∀ (acc : PurgeSummary) (db : DB) (t : ImagingStudy),
    t ∈ (purgeLoop oracle L acc db).2.studies → t ∈ db.studies := by
  induction L with
  | nil => intro acc db t ht; exact ht
  | cons x rest ih =>
    intro acc db t ht
    simp only [purgeLoop] at ht
    cases horacle : oracle x.id with
    | noFail =>
      rw [horacle] at ht
      have h1 := ih
        { acc with
          total_purged := acc.total_purged + 1
          by_hospital := bumpCount acc.by_hospital (hospitalNameOf db x) }
        (deleteStudyCascade (auditAppend db (purgeAudit db x)) x.id) t ht
      have h2 : t ∈ (auditAppend db (purgeAudit db x)).studies.filter
        (fun s => ¬(s.id == x.id)) := h1
      exact List.mem_of_mem_filter h2
    | failEarly m =>
      rw [horacle] at ht
      exact ih { acc with errors := acc.errors ++ [purgeFailMsg x.id m] } db t ht
    | failAtDelete m =>
      rw [horacle] at ht
      exact ih { acc with errors := acc.errors ++ [purgeFailMsg x.id m] }
        (auditAppend db (purgeAudit db x)) t ht

theorem purgeLoop_survives (oracle : Nat → PurgeFail) (L : List ImagingStudy) :
    ∀ (acc : PurgeSummary) (db : DB) (s : ImagingStudy), s ∈ db.studies →
    (∀ x ∈ L, x.id = s.id → oracle x.id ≠ .noFail) →
    s ∈ (purgeLoop oracle L acc db).2.studies := by
  induction L with
  | nil => intro acc db s hs _; exact hs
  | cons x rest ih =>
    intro acc db s hs hcond
    simp only [purgeLoop]
    cases horacle : oracle x.id with
    | noFail =>
      have hne : x.id ≠ s.id := by
        intro h
        exact hcond x (List.mem_cons_self x rest) h horacle
      refine ih _ _ s ?_ (fun y hy => hcond y (List.mem_cons_of_mem x hy))
      show s ∈ ((auditAppend db (purgeAudit db x)).studies.filter
        (fun t => ¬(t.id == x.id)))
      refine List.mem_filter.mpr ⟨hs, ?_⟩
      have hns : ¬(s.id = x.id) := fun h => hne h.symm
      simpa using hns
    | failEarly m => exact ih _ _ s hs (fun y hy => hcond y (List.mem_cons_of_mem x hy))
    | failAtDelete m =>
      refine ih _ _ s ?_ (fun y hy => hcond y (List.mem_cons_of_mem x hy))
      show s ∈ (auditAppend db (purgeAudit db x)).studies
      exact hs

theorem purgeLoop_purges (oracle : Nat → PurgeFail) (L : List ImagingStudy) :
    ∀ (acc : PurgeSummary) (db : DB) (s : ImagingStudy), s ∈ L →
    oracle s.id = .noFail →
    (∀ t ∈ (purgeLoop oracle L acc db).2.studies, t.id ≠ s.id) ∧
    (∃ a ∈ (purgeLoop oracle L acc db).2.auditLogs,
       a.action = "delete" ∧ a.resource_type = "ImagingStudy" ∧
       a.resource_id = s.id) := by
  induction L with
  | nil => intro acc db s hs _; exact absurd hs (List.not_mem_nil s)
  | cons x rest ih =>
    intro acc db s hs horc
    rcases List.mem_cons.mp hs with rfl | hs2
    · -- s is the head: audit then delete, then nothing re-creates it
      simp only [purgeLoop]
      rw [horc]
      constructor
      · intro t ht
        have h2 : t ∈ (auditAppend db (purgeAudit db s)).studies.filter
            (fun u => ¬(u.id == s.id)) :=
          purgeLoop_studies_subset oracle rest _ _ t ht
        have h3 := List.of_mem_filter h2
        simp only [beq_iff_eq] at h3
        simpa using h3
      · refine ⟨purgeAudit db s, ?_, rfl, rfl, rfl⟩
        refine purgeLoop_audit_mono oracle rest _ _ _ ?_
        show purgeAudit db s ∈ (auditAppend db (purgeAudit db s)).auditLogs
        exact List.mem_append_right _ (List.mem_singleton.mpr rfl)
    · -- s comes later: recurse through whatever happens to the head
      simp only [purgeLoop]
      cases horacle : oracle x.id with
      | noFail => exact ih _ _ s hs2 horc
      | failEarly m => exact ih _ _ s hs2 horc
      | failAtDelete m => exact ih _ _ s hs2 horc

theorem purgeLoop_error_recorded (oracle : Nat → PurgeFail)
    (L : List ImagingStudy) :
    ∀ (acc : PurgeSummary) (db : DB) (s : ImagingStudy) (m : String), s ∈ L →
    (oracle s.id = .failEarly m ∨ oracle s.id = .failAtDelete m) →
    purgeFailMsg s.id m ∈ (purgeLoop oracle L acc db).1.errors := by
  induction L with
  | nil => intro acc db s m hs _; exact absurd hs (List.not_mem_nil s)
  | cons x rest ih =>
    intro acc db s m hs horc
    rcases List.mem_cons.mp hs with rfl | hs2
    · simp only [purgeLoop]
      rcases horc with horc | horc
      · rw [horc]
        refine purgeLoop_errors_mono oracle rest _ _ _ ?_
        exact List.mem_append_right _ (List.mem_singleton.mpr rfl)
      · rw [horc]
        refine purgeLoop_errors_mono oracle rest _ _ _ ?_
        exact List.mem_append_right _ (List.mem_singleton.mpr rfl)
    · simp only [purgeLoop]
      cases horacle : oracle x.id with
      | noFail => exact ih _ _ s m hs2 horc
      | failEarly m2 => exact ih _ _ s m hs2 horc
      | failAtDelete m2 => exact ih _ _ s m hs2 horc

/-- C7: the purge sweep deletes exactly the studies with status
`archived` and retention deadline strictly before today: deleted rows
all satisfy the filter, non-matching rows survive untouched, and every
matching row whose deletion does not fail is removed with a
`delete`-action audit record for its id (created before the deletion in
the model and) still present afterwards; a per-study failure is recorded
in the summary's error list, leaves that study in place, and does not
stop the sweep over the remaining studies. -/
theorem purge_sweep (today : Int) (oracle : Nat → PurgeFail) (db : DB)
    (hids : (db.studies.map (fun s => s.id)).Nodup) :
    (∀ t ∈ (purge_expired_studies today oracle db).2.studies, t ∈ db.studies) ∧
    (∀ s ∈ db.studies, isExpired today s = false →
       s ∈ (purge_expired_studies today oracle db).2.studies) ∧
    (∀ s ∈ db.studies, isExpired today s = true → oracle s.id = .noFail →
       (∀ t ∈ (purge_expired_studies today oracle db).2.studies, t.id ≠ s.id) ∧
       (∃ a ∈ (purge_expired_studies today oracle db).2.auditLogs,
          a.action = "delete" ∧ a.resource_type = "ImagingStudy" ∧
          a.resource_id = s.id)) ∧
    (∀ s ∈ db.studies, isExpired today s = true →
       ∀ m : String,
       (oracle s.id = .failEarly m ∨ oracle s.id = .failAtDelete m) →
       purgeFailMsg s.id m ∈ (purge_expired_studies today oracle db).1.errors ∧
       s ∈ (purge_expired_studies today oracle db).2.studies) := by
  refine ⟨?_, ?_, ?_, ?_⟩
  · intro t ht
    exact purgeLoop_studies_subset oracle (db.studies.filter (isExpired today))
      { total_purged := 0, by_hospital := [], errors := [] } db t ht
  · intro s hs hnotexp
    refine purgeLoop_survives oracle (db.studies.filter (isExpired today))
      { total_purged := 0, by_hospital := [], errors := [] } db s hs ?_
    intro x hx hxid
    have hxs : x = s :=
      List.inj_on_of_nodup_map hids (List.mem_of_mem_filter hx) hs hxid
    have hxexp := List.of_mem_filter hx
    rw [hxs, hnotexp] at hxexp
    exact absurd hxexp (by simp)
  · intro s hs hexp horc
    exact purgeLoop_purges oracle (db.studies.filter (isExpired today))
      { total_purged := 0, by_hospital := [], errors := [] } db s
      (List.mem_filter.mpr ⟨hs, hexp⟩) horc
  · intro s hs hexp m horc
    constructor
    · exact purgeLoop_error_recorded oracle (db.studies.filter (isExpired today))
        { total_purged := 0, by_hospital := [], errors := [] } db s m
        (List.mem_filter.mpr ⟨hs, hexp⟩) horc
    · refine purgeLoop_survives oracle (db.studies.filter (isExpired today))
        { total_purged := 0, by_hospital := [], errors := [] } db s hs ?_
      intro x hx hxid
      have hxs : x = s :=
        List.inj_on_of_nodup_map hids (List.mem_of_mem_filter hx) hs hxid
      rw [hxs]
      rcases horc with horc | horc <;> rw [horc] <;> simp

/-- Witness for `purge_sweep`: with today = day 100, the expired
archived study (id 7) is deleted with a surviving `delete` audit record,
and the unexpired archived study (id 8) survives. -/
theorem purge_sweep_witness :
    ((dbPurge.studies.map (fun s => s.id)).Nodup ∧
     stExpired ∈ dbPurge.studies ∧ isExpired 100 stExpired = true ∧
     (fun _ : Nat => PurgeFail.noFail) stExpired.id = .noFail ∧
     stKept ∈ dbPurge.studies ∧ isExpired 100 stKept = false) ∧
    ((∀ t ∈ (purge_expired_studies 100 (fun _ => PurgeFail.noFail) dbPurge).2.studies,
        t.id ≠ stExpired.id) ∧
     (∃ a ∈ (purge_expired_studies 100 (fun _ => PurgeFail.noFail) dbPurge).2.auditLogs,
        a.action = "delete" ∧ a.resource_type = "ImagingStudy" ∧
        a.resource_id = stExpired.id)) ∧
    stKept ∈ (purge_expired_studies 100 (fun _ => PurgeFail.noFail) dbPurge).2.studies :=
  ⟨⟨by decide, by decide, by decide, rfl, by decide, by decide⟩,
   (purge_sweep 100 (fun _ => PurgeFail.noFail) dbPurge (by decide)).2.2.1 stExpired
     (by decide) (by decide) rfl,
   (purge_sweep 100 (fun _ => PurgeFail.noFail) dbPurge (by decide)).2.1 stKept
     (by decide) (by decide)⟩
